/-
Verification of the `contract-first-integrations` repository's scripts.

This file shallowly embeds the two pipelines of the repository in Lean 4:

* `src/presentations/contract-first-integration/generate_pptx.py` —
  the markdown-to-slide-deck parser (`parse_markdown_slides`), the
  renderer's line-classification rules (`_add_formatted_content`) and
  the orchestrator's per-slide dispatch (`main`), including which slide
  kinds receive a footer and with which page number.
* `src/docs/images/convert-svg-to-png.py` — the raster-conversion CLI's
  argument defaults (`main` lines 257-259), the per-file conversion
  wrapper (`convert_svg_to_png`) and the batch loop with its failure
  accounting and final exit status.

Python strings are modelled by Lean `String`; the handful of Python
string primitives the scripts use (`str.strip`, `str.startswith`,
`str.split('\n')`, `'\n'.join`, substring membership, slicing, string
truthiness) are given explicit structural definitions at the
character-list level so that everything evaluates by `decide`/`rfl`
and is amenable to induction.
-/
import Mathlib

namespace ContractFirst

/-! ### Python string primitives -/

/-- Whitespace as recognized by Python's `str.strip()` (ASCII part). -/
def isPyWs (c : Char) : Bool :=
  c = ' ' || c = '\t' || c = '\n' || c = '\r' || c = '\x0b' || c = '\x0c'

/-- `str.lstrip()` on the underlying character list. -/
def pyStripLeftData (cs : List Char) : List Char := cs.dropWhile isPyWs

/-- `str.rstrip()` on the underlying character list. -/
def pyStripRightData (cs : List Char) : List Char :=
  (cs.reverse.dropWhile isPyWs).reverse

/-- Python `str.strip()`: remove leading and trailing whitespace. -/
def pyStrip (s : String) : String :=
  ⟨pyStripRightData (pyStripLeftData s.data)⟩

/-- Python string truthiness: a string is truthy iff it is non-empty. -/
def pyBool (s : String) : Bool := !(s.data.isEmpty)

/-- Python `s.startswith(p)`. -/
def pyStartsWith (s p : String) : Bool := p.data.isPrefixOf s.data

/-- Python `s.endswith(p)`. -/
def pyEndsWith (s p : String) : Bool := p.data.reverse.isPrefixOf s.data.reverse

/-- Python `s[n:]` (slicing by code points). -/
def strDrop (s : String) (n : Nat) : String := ⟨s.data.drop n⟩

/-- Helper for `pyContains`: does `sub` occur in `cs`? -/
def pyContainsData (sub : List Char) : List Char → Bool
  | [] => sub.isEmpty
  | c :: rest => sub.isPrefixOf (c :: rest) || pyContainsData sub rest

/-- Python `sub in s` (substring membership). -/
def pyContains (s sub : String) : Bool := pyContainsData sub.data s.data

/-- Helper for `pySplit`: split a character list at every `'\n'`,
returning the first component and the remaining components. -/
def pySplitAux : List Char → String × List String
  | [] => ("", [])
  | c :: rest =>
    let r := pySplitAux rest
    if c = '\n' then ("", r.1 :: r.2)
    else (⟨c :: r.1.data⟩, r.2)

/-- Python `s.split('\n')`: never empty, does not collapse runs. -/
def pySplit (s : String) : List String :=
  (pySplitAux s.data).1 :: (pySplitAux s.data).2

/-- Python `'\n'.join(xs)`. -/
def pyJoin : List String → String
  | [] => ""
  | [x] => x
  | x :: y :: rest => x ++ "\n" ++ pyJoin (y :: rest)

/-! ### Slide data model (`parse_markdown_slides`, lines 280-338)

A slide is the dictionary `{"title": ..., "content": ..., "type": ...}`
with the `"language"` key present only after a code fence was consumed
(modelled by `Option`). -/

inductive SlideType where
  | title
  | content
  | code
deriving DecidableEq, Repr

structure Slide where
  title : String := ""
  content : String := ""
  type : SlideType := SlideType.content
  language : Option String := none
deriving DecidableEq, Repr

/-- The parser's two scanning modes: normal line scanning, and the inner
`while` loop of the code-fence branch (lines 319-321), which carries the
pending language tag and the code lines collected so far. -/
inductive PMode where
  | normal
  | fence (lang : String) (buf : List String)

/-- The scanning loop of `parse_markdown_slides` (lines 288-336), one
line consumed per step; `i` is the current line index (only compared
against 0 for the H1 branch), `cur` the slide under construction, `acc`
the emitted slides.  The fence mode plays the inner `while` of lines
319-321: on a closing fence (or end of input) the collected lines are
joined and assigned — not appended — to `content` (line 322). -/
def parseRun : List String → Nat → PMode → Slide → List Slide → List Slide
  | [], _, PMode.normal, cur, acc =>
    -- lines 334-336: add last slide
    if cur.title ≠ "" ∨ cur.content ≠ "" then acc ++ [cur] else acc
  | [], _, PMode.fence lang buf, cur, acc =>
    -- unterminated fence: fields are still assigned, then the loop ends
    let cur' : Slide :=
      { cur with content := pyJoin buf, type := SlideType.code, language := some lang }
    if cur'.title ≠ "" ∨ cur'.content ≠ "" then acc ++ [cur'] else acc
  | l :: rest, i, PMode.fence lang buf, cur, acc =>
    if pyStartsWith (pyStrip l) "```" then
      parseRun rest (i + 1) PMode.normal
        { cur with content := pyJoin buf, type := SlideType.code, language := some lang } acc
    else
      parseRun rest (i + 1) (PMode.fence lang (buf ++ [l])) cur acc
  | l :: rest, i, PMode.normal, cur, acc =>
    let line := pyStrip l
    if line = "---" then
      -- lines 292-297: slide separator
      parseRun rest (i + 1) PMode.normal {}
        (if cur.title ≠ "" ∨ cur.content ≠ "" then acc ++ [cur] else acc)
    else if pyStartsWith line "# " = true ∧ cur.title = "" then
      -- lines 300-304: H1 heading
      parseRun rest (i + 1) PMode.normal
        { cur with title := pyStrip (strDrop line 2),
                   type := if i = 0 then SlideType.title else SlideType.content } acc
    else if pyStartsWith line "## " then
      -- lines 306-312: H2 heading
      if cur.title ≠ "" ∨ cur.content ≠ "" then
        parseRun rest (i + 1) PMode.normal
          { title := pyStrip (strDrop line 3) } (acc ++ [cur])
      else
        parseRun rest (i + 1) PMode.normal
          { cur with title := pyStrip (strDrop line 3) } acc
    else if pyStartsWith line "```" then
      -- lines 315-326: enter code capture
      parseRun rest (i + 1) (PMode.fence (pyStrip (strDrop line 3)) []) cur acc
    else if line ≠ "" then
      -- lines 329-330: regular content
      parseRun rest (i + 1) PMode.normal
        { cur with content := cur.content ++ line ++ "\n" } acc
    else
      parseRun rest (i + 1) PMode.normal cur acc

/-- `parse_markdown_slides(md_content)` (lines 280-338). -/
def parse_markdown_slides (md : String) : List Slide :=
  parseRun (pySplit md) 0 PMode.normal {} []

example :
    parse_markdown_slides "# Deck\nAuthor: A\n## Intro\n- point\n## Code\n```python\nprint(1)\n```"
      = [ { title := "Deck", content := "Author: A\n", type := SlideType.title },
          { title := "Intro", content := "- point\n" },
          { title := "Code", content := "print(1)", type := SlideType.code,
            language := some "python" } ] := by decide

/-! ### Renderer model (`ModernPresentationGenerator` and `main`)

`_add_formatted_content` (lines 214-260) classifies each line of
`content.strip().split('\n')` with a first-match-wins chain; only the
chain itself matters for the claims, so we model the chosen branch.
The marker characters below are the exact (mojibake) characters found
in the source file. -/

inductive LineStyle where
  | bullet
  | subBullet
  | bold
  | icon
  | plain
  | blank
deriving DecidableEq, Repr

/-- The branch of `_add_formatted_content`'s `if`/`elif` chain
(lines 225-260) that fires for a given line. -/
def classifyLine (l : String) : LineStyle :=
  if pyStartsWith l "- " || pyStartsWith l "‚Ä¢ " then LineStyle.bullet
  else if pyStartsWith l "  - " then LineStyle.subBullet
  else if pyStartsWith l "**" && pyEndsWith l "**" then LineStyle.bold
  else if pyStartsWith l "‚úÖ" || pyStartsWith l "‚ùå"
          || pyStartsWith l "üîπ" then LineStyle.icon
  else if pyBool (pyStrip l) then LineStyle.plain
  else LineStyle.blank

/-- The lines `_add_formatted_content` iterates over:
`content.strip().split('\n')` (line 216). -/
def contentLines (content : String) : List String := pySplit (pyStrip content)

/-- The visual kind of slide produced by `main`'s dispatch
(lines 368-396): title slide, code slide, section divider, or content
slide. -/
inductive RenderKind where
  | titleSlide
  | codeSlide
  | sectionSlide
  | contentSlide
deriving DecidableEq, Repr

/-- One rendered slide: its kind and, when `_add_footer` was called for
it, the page number placed in the footer (`len(self.prs.slides)` at the
moment of the call). -/
structure RenderedSlide where
  kind : RenderKind
  footer : Option Nat
deriving DecidableEq, Repr

/-- The section-divider keyword test of line 385:
`"Key Takeaways" in title or "Questions" in title`. -/
def isSectionKeyword (title : String) : Bool :=
  pyContains title "Key Takeaways" || pyContains title "Questions"

/-- One iteration of `main`'s dispatch loop (lines 368-396) for the
slide at 1-based position `i`, where `count` slides are already in the
presentation; every `add_*` method adds exactly one slide, so the
footer-page argument `len(self.prs.slides)` equals `count + 1`.
`add_title_slide` and `add_section_slide` never call `_add_footer`;
`add_content_slide` (line 123) and `add_code_slide` (line 177) always
do. -/
def dispatchSlide (i : Nat) (count : Nat) (s : Slide) : RenderedSlide :=
  if s.type = SlideType.title ∧ i = 1 then
    { kind := RenderKind.titleSlide, footer := none }
  else if s.type = SlideType.code then
    { kind := RenderKind.codeSlide, footer := some (count + 1) }
  else if isSectionKeyword s.title then
    { kind := RenderKind.sectionSlide, footer := none }
  else
    { kind := RenderKind.contentSlide, footer := some (count + 1) }

/-- The dispatch loop, threading the enumeration index `i` (from
`enumerate(slides_data, 1)`) and the slide count of the growing
presentation. -/
def renderDeckAux : List Slide → Nat → Nat → List RenderedSlide
  | [], _, _ => []
  | s :: rest, i, count =>
    dispatchSlide i count s :: renderDeckAux rest (i + 1) (count + 1)

/-- The whole deck produced by `main` from the parsed slides. -/
def renderDeck (slides : List Slide) : List RenderedSlide :=
  renderDeckAux slides 1 0

/-! ### Raster-conversion CLI model (`convert-svg-to-png.py`) -/

/-- Argument handling of `main` (lines 257-259).  `argv` includes the
script name at position 0; `toInt` stands for Python's `int()` applied
to an argument that parses. -/
structure Args where
  width : Int
  height : Int
  pattern : String
deriving DecidableEq, Repr

def parseArgs (argv : List String) (toInt : String → Int) : Args :=
  { width := match argv[1]? with
      | some a => toInt a
      | none => 1200
    height := match argv[2]? with
      | some a => toInt a
      | none => 630
    pattern := argv[3]?.getD "*featured-contract-first.svg" }

/-- What the `rsvg-convert` subprocess call of `convert_svg_to_png`
can do, i.e. which of the function's `except` arms is taken:
it returns normally (the PNG gets some byte size), raises
`CalledProcessError` carrying stderr, raises `TimeoutExpired`, or
raises any other exception (e.g. `FileNotFoundError` when the tool has
vanished), whose message is `str(e)`. -/
inductive ConvOutcome where
  | ok (sizeBytes : Nat)
  | procErr (stderr : String)
  | timeout
  | exc (msg : String)
deriving DecidableEq, Repr

/-- The size pretty-printer of lines 237-242. -/
def sizeStr (sizeBytes : Nat) : String :=
  if sizeBytes < 1024 then toString sizeBytes ++ "B"
  else if sizeBytes < 1024 * 1024 then toString (sizeBytes / 1024) ++ "K"
  else toString (sizeBytes / (1024 * 1024)) ++ "M"

/-- `convert_svg_to_png` (lines 210-251): returns
`(success, file_size_or_error_msg)`; every exception arm is caught and
turned into a `(False, reason)` result. -/
def convert_svg_to_png (o : ConvOutcome) : Bool × String :=
  match o with
  | ConvOutcome.ok n => (true, sizeStr n)
  | ConvOutcome.procErr e => (false, "Conversion error: " ++ e)
  | ConvOutcome.timeout => (false, "Conversion timeout (>30s)")
  | ConvOutcome.exc m => (false, m)

/-- The mutable state of the conversion loop (lines 297-319):
`success_count`, `failed_count`, `failed_files`, plus the per-file
progress log — one `(file, message)` entry printed per processed
file. -/
structure BatchResult where
  success : Nat := 0
  failed : Nat := 0
  failedFiles : List String := []
  log : List (String × String) := []
deriving DecidableEq, Repr

/-- One iteration of the conversion loop (lines 301-319). -/
def processFile (isFile : String → Bool) (outcome : String → ConvOutcome)
    (r : BatchResult) (f : String) : BatchResult :=
  if isFile f then
    let res := convert_svg_to_png (outcome f)
    if res.1 then
      { r with success := r.success + 1, log := r.log ++ [(f, res.2)] }
    else
      { r with failed := r.failed + 1, failedFiles := r.failedFiles ++ [f],
               log := r.log ++ [(f, res.2)] }
  else r

/-- Python `sorted()` on strings: an insertion sort by the decidable
lexicographic order (stable, ascending — any sort agrees up to
permutation, which is all the claims need). -/
def insertSorted (a : String) : List String → List String
  | [] => [a]
  | b :: rest => if a.data ≤ b.data then a :: b :: rest else b :: insertSorted a rest

def pySorted : List String → List String
  | [] => []
  | a :: rest => insertSorted a (pySorted rest)

/-- The conversion loop over `sorted(svg_files)`. -/
def runBatch (isFile : String → Bool) (outcome : String → ConvOutcome)
    (files : List String) : BatchResult :=
  (pySorted files).foldl (processFile isFile outcome) {}

/-- The environment `main` runs against: whether `check_rsvg_convert`
succeeds, the `glob.glob(pattern)` result, `os.path.isfile`, and the
subprocess outcome for each file. -/
structure Env where
  rsvgOk : Bool
  matchedFiles : List String
  isFile : String → Bool
  outcome : String → ConvOutcome

/-- The exit status of `main` (lines 272-335): `sys.exit(1)` when the
tool is missing (line 281) or no file matches (line 291), otherwise
`sys.exit(failed_count)` (line 335). -/
def mainExit (env : Env) : Nat :=
  if env.rsvgOk = false then 1
  else if env.matchedFiles = [] then 1
  else (runBatch env.isFile env.outcome env.matchedFiles).failed

/-! ### Derived notions used by the claim statements -/

/-- The title an H2 heading line contributes: `line[3:].strip()` of the
stripped line (line 310). -/
def secTitleOf (l : String) : String := pyStrip (strDrop (pyStrip l) 3)

/-- The title an H1 heading line contributes: `line[2:].strip()` of the
stripped line (line 301). -/
def h1TitleOf (l : String) : String := pyStrip (strDrop (pyStrip l) 2)

/-- The language tag of an opening fence line: `line[3:].strip()` of the
stripped line (line 316). -/
def fenceLang (l : String) : String := pyStrip (strDrop (pyStrip l) 3)

/-- A line that opens a code fence: it is not a separator and the fence
branch (line 315) is the first of the parser's tests to fire on it. -/
def FenceOpen (l : String) : Prop :=
  pyStrip l ≠ "---" ∧ pyStartsWith (pyStrip l) "# " = false ∧
    pyStartsWith (pyStrip l) "## " = false ∧ pyStartsWith (pyStrip l) "```" = true

/-- A line that does not close a code fence (line 319's test fails). -/
def NonClosing (b : String) : Prop := pyStartsWith (pyStrip b) "```" = false

/-- A line that closes a code fence (line 319's test succeeds). -/
def Closing (c : String) : Prop := pyStartsWith (pyStrip c) "```" = true

/-- A well-formed `## ` section heading with non-empty title text. -/
def HeadLine (l : String) : Prop :=
  pyStrip l ≠ "---" ∧ pyStartsWith (pyStrip l) "# " = false ∧
    pyStartsWith (pyStrip l) "## " = true ∧ secTitleOf l ≠ ""

/-- A plain body line of a section: not a separator, not an H2 heading,
not a fence line (it may be blank, an icon line, a bullet, or even a
stray H1, which the parser treats as content once a title is set). -/
def BodyLine (b : String) : Prop :=
  pyStrip b ≠ "---" ∧ pyStartsWith (pyStrip b) "## " = false ∧
    pyStartsWith (pyStrip b) "```" = false

/-- A well-formed H1 title line with non-empty title text. -/
def H1Line (l : String) : Prop :=
  pyStrip l ≠ "---" ∧ pyStartsWith (pyStrip l) "# " = true ∧ h1TitleOf l ≠ ""

instance (l : String) : Decidable (FenceOpen l) := by
  unfold FenceOpen
  exact inferInstance

instance (b : String) : Decidable (NonClosing b) := by
  unfold NonClosing
  exact inferInstance

instance (c : String) : Decidable (Closing c) := by
  unfold Closing
  exact inferInstance

instance (l : String) : Decidable (HeadLine l) := by
  unfold HeadLine
  exact inferInstance

instance (b : String) : Decidable (BodyLine b) := by
  unfold BodyLine
  exact inferInstance

instance (l : String) : Decidable (H1Line l) := by
  unfold H1Line
  exact inferInstance

/-- The content accumulated from a list of body lines on top of `c`
(line 330, applied to each non-blank stripped line in order). -/
def bodyAppend (c : String) (body : List String) : String :=
  body.foldl (fun s b => if pyStrip b ≠ "" then s ++ pyStrip b ++ "\n" else s) c

/-- The line lists of a list of `## `-sections, each a heading line
followed by its body lines. -/
def sectionsLines (secs : List (String × List String)) : List String :=
  (secs.map (fun p => p.1 :: p.2)).flatten

/-- The slide record a well-formed section parses to. -/
def secSlide (sec : String × List String) : Slide :=
  { title := secTitleOf sec.1, content := bodyAppend "" sec.2 }

/-! ### Basic facts about the string primitives -/

theorem pyStartsWith_data {s p : String} (h : pyStartsWith s p = true) :
    ∃ t, s.data = p.data ++ t := by
  have hpre : p.data <+: s.data := List.isPrefixOf_iff_prefix.1 h
  obtain ⟨t, ht⟩ := hpre
  exact ⟨t, ht.symm⟩

theorem ne_empty_of_startsWith_h {s : String} (h : pyStartsWith s "# " = true) :
    s ≠ "" := by
  obtain ⟨t, ht⟩ := pyStartsWith_data h
  intro he
  rw [he] at ht
  simp at ht

theorem ne_empty_of_startsWith_hh {s : String} (h : pyStartsWith s "## " = true) :
    s ≠ "" := by
  obtain ⟨t, ht⟩ := pyStartsWith_data h
  intro he
  rw [he] at ht
  simp at ht

theorem not_startsWith_h_of_hh {s : String} (h : pyStartsWith s "## " = true) :
    pyStartsWith s "# " = false := by
  obtain ⟨t, ht⟩ := pyStartsWith_data h
  simp [pyStartsWith, ht, List.isPrefixOf]

/-! ### Branch-selection equations for `parseRun`

One lemma per branch of the scanning loop, with the guard outcomes as
hypotheses. -/

theorem parseRun_nil (i : Nat) (cur : Slide) (acc : List Slide) :
    parseRun [] i PMode.normal cur acc =
      if cur.title ≠ "" ∨ cur.content ≠ "" then acc ++ [cur] else acc := rfl

theorem parseRun_nil_fence (i : Nat) (lang : String) (buf : List String)
    (cur : Slide) (acc : List Slide) :
    parseRun [] i (PMode.fence lang buf) cur acc =
      if cur.title ≠ "" ∨ pyJoin buf ≠ "" then
        acc ++ [⟨cur.title, pyJoin buf, SlideType.code, some lang⟩]
      else acc := rfl

theorem parseRun_fence_close {l : String} (h : pyStartsWith (pyStrip l) "```" = true)
    (rest : List String) (i : Nat) (lang : String) (buf : List String)
    (cur : Slide) (acc : List Slide) :
    parseRun (l :: rest) i (PMode.fence lang buf) cur acc =
      parseRun rest (i + 1) PMode.normal
        { cur with content := pyJoin buf, type := SlideType.code,
                   language := some lang } acc := by
  simp only [parseRun, h, if_true]

theorem parseRun_fence_keep {l : String} (h : pyStartsWith (pyStrip l) "```" = false)
    (rest : List String) (i : Nat) (lang : String) (buf : List String)
    (cur : Slide) (acc : List Slide) :
    parseRun (l :: rest) i (PMode.fence lang buf) cur acc =
      parseRun rest (i + 1) (PMode.fence lang (buf ++ [l])) cur acc := by
  simp only [parseRun, h]
  simp

theorem parseRun_sep {l : String} (h : pyStrip l = "---")
    (rest : List String) (i : Nat) (cur : Slide) (acc : List Slide) :
    parseRun (l :: rest) i PMode.normal cur acc =
      parseRun rest (i + 1) PMode.normal {}
        (if cur.title ≠ "" ∨ cur.content ≠ "" then acc ++ [cur] else acc) := by
  simp only [parseRun, h]
  simp

theorem parseRun_h1 {l : String} {cur : Slide} (h0 : pyStrip l ≠ "---")
    (h1 : pyStartsWith (pyStrip l) "# " = true) (ht : cur.title = "")
    (rest : List String) (i : Nat) (acc : List Slide) :
    parseRun (l :: rest) i PMode.normal cur acc =
      parseRun rest (i + 1) PMode.normal
        { cur with title := pyStrip (strDrop (pyStrip l) 2),
                   type := if i = 0 then SlideType.title else SlideType.content } acc := by
  simp only [parseRun, if_neg h0, if_pos (And.intro h1 ht)]

theorem parseRun_h2 {l : String} {cur : Slide} (h0 : pyStrip l ≠ "---")
    (h1 : ¬(pyStartsWith (pyStrip l) "# " = true ∧ cur.title = ""))
    (h2 : pyStartsWith (pyStrip l) "## " = true)
    (rest : List String) (i : Nat) (acc : List Slide) :
    parseRun (l :: rest) i PMode.normal cur acc =
      (if cur.title ≠ "" ∨ cur.content ≠ "" then
        parseRun rest (i + 1) PMode.normal
          { title := pyStrip (strDrop (pyStrip l) 3) } (acc ++ [cur])
      else
        parseRun rest (i + 1) PMode.normal
          { cur with title := pyStrip (strDrop (pyStrip l) 3) } acc) := by
  simp only [parseRun, if_neg h0, if_neg h1, h2, if_true]

theorem parseRun_fence_open {l : String} {cur : Slide} (h0 : pyStrip l ≠ "---")
    (h1 : ¬(pyStartsWith (pyStrip l) "# " = true ∧ cur.title = ""))
    (h2 : pyStartsWith (pyStrip l) "## " = false)
    (h3 : pyStartsWith (pyStrip l) "```" = true)
    (rest : List String) (i : Nat) (acc : List Slide) :
    parseRun (l :: rest) i PMode.normal cur acc =
      parseRun rest (i + 1) (PMode.fence (pyStrip (strDrop (pyStrip l) 3)) []) cur acc := by
  simp only [parseRun, if_neg h0, if_neg h1, h2, h3, if_true]
  simp

theorem parseRun_content {l : String} {cur : Slide} (h0 : pyStrip l ≠ "---")
    (h1 : ¬(pyStartsWith (pyStrip l) "# " = true ∧ cur.title = ""))
    (h2 : pyStartsWith (pyStrip l) "## " = false)
    (h3 : pyStartsWith (pyStrip l) "```" = false)
    (h4 : pyStrip l ≠ "")
    (rest : List String) (i : Nat) (acc : List Slide) :
    parseRun (l :: rest) i PMode.normal cur acc =
      parseRun rest (i + 1) PMode.normal
        { cur with content := cur.content ++ pyStrip l ++ "\n" } acc := by
  simp only [parseRun, if_neg h0, if_neg h1, h2, h3, if_pos h4]
  simp

theorem parseRun_blank {l : String} (h4 : pyStrip l = "")
    (rest : List String) (i : Nat) (cur : Slide) (acc : List Slide) :
    parseRun (l :: rest) i PMode.normal cur acc =
      parseRun rest (i + 1) PMode.normal cur acc := by
  simp only [parseRun, h4]
  simp [pyStartsWith, List.isPrefixOf]

/-! ### Structural facts about `pyStrip` and friends -/

theorem string_data_append (a b : String) : (a ++ b).data = a.data ++ b.data := rfl

theorem string_eq_iff_data {s t : String} : s = t ↔ s.data = t.data :=
  ⟨String.data_eq_of_eq, String.ext⟩

theorem string_ne_empty_iff {s : String} : s ≠ "" ↔ s.data ≠ [] := by
  rw [ne_eq, string_eq_iff_data]

/-- The head of a non-trivial `dropWhile` result fails the predicate. -/
theorem dropWhile_head_false {p : Char → Bool} {l : List Char} {c : Char}
    {t : List Char} (h : l.dropWhile p = c :: t) : p c = false := by
  induction l with
  | nil => simp at h
  | cons a l' ih =>
    rw [List.dropWhile_cons] at h
    by_cases hp : p a
    · rw [if_pos hp] at h
      exact ih h
    · rw [if_neg hp] at h
      cases h
      simpa using hp

/-- The result of a right strip is a prefix of its input. -/
theorem pyStripRightData_prefixOf (x : List Char) : pyStripRightData x <+: x := by
  have h1 : x.reverse.dropWhile isPyWs <:+ x.reverse := List.dropWhile_suffix isPyWs
  have h2 := List.reverse_prefix.mpr h1
  rwa [List.reverse_reverse] at h2

/-- The first character surviving `pyStrip` is not whitespace. -/
theorem pyStrip_head_not_ws {s : String} {c : Char} {t : List Char}
    (h : (pyStrip s).data = c :: t) : isPyWs c = false := by
  obtain ⟨r, hr⟩ := pyStripRightData_prefixOf (pyStripLeftData s.data)
  have hx : s.data.dropWhile isPyWs = c :: (t ++ r) := by
    show pyStripLeftData s.data = c :: (t ++ r)
    rw [← hr]
    simp only [pyStrip] at h
    rw [h]
    simp
  exact dropWhile_head_false hx

/-- The last character surviving `pyStrip` is not whitespace. -/
theorem pyStrip_last_not_ws {s : String} {c : Char}
    (h : (pyStrip s).data.getLast? = some c) : isPyWs c = false := by
  simp only [pyStrip, pyStripRightData] at h
  rw [List.getLast?_reverse] at h
  match hyc : (pyStripLeftData s.data).reverse.dropWhile isPyWs with
  | [] => rw [hyc] at h; simp at h
  | c' :: t' =>
    rw [hyc] at h
    simp only [List.head?_cons, Option.some.injEq] at h
    subst h
    exact dropWhile_head_false hyc

/-- Characters of `pyStrip s` come from `s`. -/
theorem pyStrip_mem {s : String} {c : Char} (h : c ∈ (pyStrip s).data) :
    c ∈ s.data := by
  simp only [pyStrip] at h
  have h1 : c ∈ pyStripLeftData s.data :=
    (pyStripRightData_prefixOf _).sublist.subset h
  exact (List.dropWhile_suffix isPyWs).sublist.subset h1

/-- A string whose first character is not whitespace does not start with
the renderer's two-space sub-bullet marker. -/
theorem not_startsWith_indent {s : String} {c : Char} {t : List Char}
    (hd : s.data = c :: t) (hw : isPyWs c = false) :
    pyStartsWith s "  - " = false := by
  have hcne : (' ' == c) = false := by
    by_cases hc : ' ' = c
    · exfalso
      rw [← hc] at hw
      simp [isPyWs] at hw
    · simpa using hc
  simp [pyStartsWith, hd, List.isPrefixOf, hcne]

/-! ### Fence-capture processing -/

/-- Processing the body of a fence up to (and including) its closing
line: all collected lines are joined and assigned to `content`. -/
theorem fence_collect {body : List String} (hbody : ∀ b ∈ body, NonClosing b)
    {cl : String} (hcl : Closing cl) (rest : List String) :
    ∀ (i : Nat) (lang : String) (buf : List String) (cur : Slide) (acc : List Slide),
    parseRun (body ++ cl :: rest) i (PMode.fence lang buf) cur acc =
      parseRun rest (i + body.length + 1) PMode.normal
        { cur with content := pyJoin (buf ++ body), type := SlideType.code,
                   language := some lang } acc := by
  induction body with
  | nil =>
    intro i lang buf cur acc
    rw [List.nil_append, parseRun_fence_close hcl]
    simp
  | cons b body' ih =>
    intro i lang buf cur acc
    have hb : NonClosing b := hbody b (by simp)
    rw [List.cons_append, parseRun_fence_keep hb]
    rw [ih (fun x hx => hbody x (by simp [hx]))]
    have harith : i + 1 + body'.length + 1 = i + (b :: body').length + 1 := by
      simp [List.length_cons]
      omega
    rw [harith, List.append_assoc]
    simp

/-- Processing an unterminated fence: the collected lines extend to the
end of the input, the fields are still assigned, and the record is
flushed if non-empty. -/
theorem fence_eof {body : List String} (hbody : ∀ b ∈ body, NonClosing b) :
    ∀ (i : Nat) (lang : String) (buf : List String) (cur : Slide) (acc : List Slide),
    parseRun body i (PMode.fence lang buf) cur acc =
      if cur.title ≠ "" ∨ pyJoin (buf ++ body) ≠ "" then
        acc ++ [⟨cur.title, pyJoin (buf ++ body), SlideType.code, some lang⟩]
      else acc := by
  induction body with
  | nil =>
    intro i lang buf cur acc
    rw [parseRun_nil_fence]
    simp
  | cons b body' ih =>
    intro i lang buf cur acc
    have hb : NonClosing b := hbody b (by simp)
    rw [parseRun_fence_keep hb]
    rw [ih (fun x hx => hbody x (by simp [hx]))]
    rw [List.append_assoc]
    simp

/-- A `FenceOpen` line never satisfies the H1 guard of line 300. -/
theorem fenceOpen_not_h1 {l : String} (h : FenceOpen l) (cur : Slide) :
    ¬(pyStartsWith (pyStrip l) "# " = true ∧ cur.title = "") := by
  intro hc
  rw [h.2.1] at hc
  exact Bool.false_ne_true hc.1

/-- Consuming a whole fenced block from normal mode: the opening line's
trailing text becomes the language, the inter-fence lines joined by
newlines become the content (replacing whatever was accumulated), and
the type becomes `code`. -/
theorem fence_block_step {opn : String} (hop : FenceOpen opn)
    {body : List String} (hbody : ∀ b ∈ body, NonClosing b)
    {cl : String} (hcl : Closing cl) (rest : List String)
    (i : Nat) (cur : Slide) (acc : List Slide) :
    parseRun (opn :: (body ++ cl :: rest)) i PMode.normal cur acc =
      parseRun rest (i + body.length + 2) PMode.normal
        ⟨cur.title, pyJoin body, SlideType.code, some (fenceLang opn)⟩ acc := by
  rw [parseRun_fence_open hop.1 (fenceOpen_not_h1 hop cur) hop.2.2.1 hop.2.2.2]
  rw [fence_collect hbody hcl]
  have harith : i + 1 + body.length + 1 = i + body.length + 2 := by omega
  rw [harith]
  rfl

/-! ### Claim C1 -/

/-- Claim C1, counterexample: in the document
`"```py\nx\n```\nafter"` the fenced block's body is exactly `"x"`, yet
the emitted code record's content is `"xafter\n"`, because the plain
line after the closing fence is appended to the same record — so the
content is not exactly the verbatim inter-fence text. -/
theorem c1_counterexample :
    parse_markdown_slides "```py\nx\n```\nafter"
        = [⟨"", "xafter\n", SlideType.code, some "py"⟩] ∧
      "xafter\n" ≠ "x" := by
  constructor
  · decide
  · decide

/-- Claim C1 (amended): whenever the parser meets a fenced code block
(opening line, non-closing body lines, closing line), it gives the
record under construction content exactly equal to the verbatim
inter-fence text (lines joined by newlines, indentation and internal
blank lines preserved, any previously accumulated content replaced),
type `code`, and language equal to the stripped text after the opening
fence marker (empty when none is given); and when the closing fence
ends the document, the record is emitted with exactly those values —
content exactly the fence body — provided the record is non-empty.
(The original claim fails only when further non-blank lines follow the
closing fence before the record's boundary: those are appended after
the fence text, as the counterexample shows.) -/
theorem c1_fenced_block :
    (∀ (opn : String), FenceOpen opn → ∀ (body : List String),
      (∀ b ∈ body, NonClosing b) → ∀ (cl : String), Closing cl →
      ∀ (rest : List String) (i : Nat) (cur : Slide) (acc : List Slide),
      parseRun (opn :: (body ++ cl :: rest)) i PMode.normal cur acc =
        parseRun rest (i + body.length + 2) PMode.normal
          ⟨cur.title, pyJoin body, SlideType.code, some (fenceLang opn)⟩ acc) ∧
    (∀ (opn : String), FenceOpen opn → ∀ (body : List String),
      (∀ b ∈ body, NonClosing b) → ∀ (cl : String), Closing cl →
      ∀ (i : Nat) (cur : Slide) (acc : List Slide),
      cur.title ≠ "" ∨ pyJoin body ≠ "" →
      parseRun (opn :: (body ++ [cl])) i PMode.normal cur acc =
        acc ++ [⟨cur.title, pyJoin body, SlideType.code, some (fenceLang opn)⟩]) := by
  constructor
  · intro opn hop body hbody cl hcl rest i cur acc
    exact fence_block_step hop hbody hcl rest i cur acc
  · intro opn hop body hbody cl hcl i cur acc hne
    rw [fence_block_step hop hbody hcl [] i cur acc]
    rw [parseRun_nil]
    simp only []
    rw [if_pos hne]

/-- Witness for C1: a concrete fenced block with an indented line and an
internal blank line, scanned from a record that already holds content
`"old\n"`; the fence body replaces it verbatim and the trailing line
`"z"` is then appended. -/
theorem c1_witness :
    parseRun ["```py", "x", "", "  y", "```", "z"] 0 PMode.normal
        ⟨"T", "old\n", SlideType.content, none⟩ []
      = [⟨"T", "x\n\n  yz\n", SlideType.code, some "py"⟩] := by
  have h := c1_fenced_block.1 "```py" (by decide) ["x", "", "  y"] (by decide)
    "```" (by decide) ["z"] 0 ⟨"T", "old\n", SlideType.content, none⟩ []
  simp only [List.cons_append, List.nil_append] at h
  rw [h]
  decide

/-! ### Claim C2 -/

/-- Claim C2, counterexample: in `"before\n```py\nx\n```"` the record
has accumulated body text `"before\n"` when the fence is met, yet the
emitted record's content is exactly `"x"` — the accumulated text is
discarded, not preserved alongside the fence body. -/
theorem c2_counterexample :
    parse_markdown_slides "before\n```py\nx\n```"
        = [⟨"", "x", SlideType.code, some "py"⟩] ∧
      pyContains "x" "before" = false := by
  constructor
  · decide
  · decide

/-- Claim C2 (amended): when a record has already accumulated body text
and a fenced code block is then encountered before the next slide
boundary, the fence's inner lines replace the record's existing
content — the previously accumulated body text is discarded.  Formally,
the parse result after the block is independent of the record's prior
content (and prior type and language); only its title survives. -/
theorem c2_fence_overwrites :
    ∀ (opn : String), FenceOpen opn → ∀ (body : List String),
      (∀ b ∈ body, NonClosing b) → ∀ (cl : String), Closing cl →
      ∀ (rest : List String) (i : Nat) (T c₁ c₂ : String)
        (ty₁ ty₂ : SlideType) (lg₁ lg₂ : Option String) (acc : List Slide),
      parseRun (opn :: (body ++ cl :: rest)) i PMode.normal ⟨T, c₁, ty₁, lg₁⟩ acc =
        parseRun (opn :: (body ++ cl :: rest)) i PMode.normal ⟨T, c₂, ty₂, lg₂⟩ acc := by
  intro opn hop body hbody cl hcl rest i T c₁ c₂ ty₁ ty₂ lg₁ lg₂ acc
  rw [fence_block_step hop hbody hcl rest i ⟨T, c₁, ty₁, lg₁⟩ acc]
  rw [fence_block_step hop hbody hcl rest i ⟨T, c₂, ty₂, lg₂⟩ acc]

/-- Witness for C2: two concrete runs differing only in the record's
prior content/type/language coincide after the fence. -/
theorem c2_witness :
    parseRun ["```js", "a", "```"] 7 PMode.normal
        ⟨"T", "one\n", SlideType.content, none⟩ []
      = parseRun ["```js", "a", "```"] 7 PMode.normal
        ⟨"T", "two\n", SlideType.code, some "x"⟩ [] := by
  exact c2_fence_overwrites "```js" (by decide) ["a"] (by decide) "```" (by decide)
    [] 7 "T" "one\n" "two\n" SlideType.content SlideType.code none (some "x") []

/-! ### Claim C8 -/

/-- Claim C8: the parser is a total function (the embedding has no
failure paths, mirroring that the Python loop indexes only under
bounds checks), an unterminated code fence extends to the end of the
document — the record still receives `type = code` with the remaining
lines, verbatim, as its content — and a stray marker line that matches
none of the constructs (not a separator, heading, or fence) is appended
to the current record as plain content rather than rejected. -/
theorem c8_degrades_gracefully :
    (∀ (opn : String), FenceOpen opn → ∀ (body : List String),
      (∀ b ∈ body, NonClosing b) →
      ∀ (i : Nat) (cur : Slide) (acc : List Slide),
      cur.title ≠ "" ∨ pyJoin body ≠ "" →
      parseRun (opn :: body) i PMode.normal cur acc =
        acc ++ [⟨cur.title, pyJoin body, SlideType.code, some (fenceLang opn)⟩]) ∧
    (∀ (l : String) (rest : List String) (i : Nat) (cur : Slide) (acc : List Slide),
      pyStrip l ≠ "---" → pyStartsWith (pyStrip l) "# " = false →
      pyStartsWith (pyStrip l) "## " = false →
      pyStartsWith (pyStrip l) "```" = false → pyStrip l ≠ "" →
      parseRun (l :: rest) i PMode.normal cur acc =
        parseRun rest (i + 1) PMode.normal
          { cur with content := cur.content ++ pyStrip l ++ "\n" } acc) := by
  constructor
  · intro opn hop body hbody i cur acc hne
    rw [parseRun_fence_open hop.1 (fenceOpen_not_h1 hop cur) hop.2.2.1 hop.2.2.2]
    rw [fence_eof hbody]
    simp only [List.nil_append]
    rw [if_pos hne]
    rfl
  · intro l rest i cur acc h0 h1 h2 h3 h4
    refine parseRun_content h0 ?_ h2 h3 h4 rest i acc
    intro hc
    rw [h1] at hc
    exact Bool.false_ne_true hc.1

/-- Witness for C8: an unterminated fence captures the rest of the
document verbatim, and the stray marker `"----"` (not a valid
separator) is kept as plain content. -/
theorem c8_witness :
    parseRun ["```python", "print(1)", "  x"] 0 PMode.normal {} []
        = [⟨"", "print(1)\n  x", SlideType.code, some "python"⟩] ∧
      parseRun ["----"] 3 PMode.normal {} []
        = parseRun [] 4 PMode.normal
            { content := ("" : String) ++ "----" ++ "\n" } [] := by
  constructor
  · have h := c8_degrades_gracefully.1 "```python" (by decide)
      ["print(1)", "  x"] (by decide) 0 {} [] (by decide)
    rw [h]
    decide
  · exact c8_degrades_gracefully.2 "----" [] 3 {} []
      (by decide) (by decide) (by decide) (by decide) (by decide)

/-! ### Record emission is gated on non-emptiness (claim C4) -/

theorem bool_eq_false {b : Bool} (h : ¬ b = true) : b = false := by
  cases b with
  | false => rfl
  | true => exact absurd rfl h

/-- Appending through the emission gate preserves a predicate that the
gate's condition guarantees for the flushed record. -/
theorem flush_preserves {P : Slide → Prop} {acc : List Slide} {cur : Slide}
    (hacc : ∀ s ∈ acc, P s) (hcur : cur.title ≠ "" ∨ cur.content ≠ "" → P cur) :
    ∀ s ∈ (if cur.title ≠ "" ∨ cur.content ≠ "" then acc ++ [cur] else acc), P s := by
  by_cases hc : cur.title ≠ "" ∨ cur.content ≠ ""
  · rw [if_pos hc]
    intro s hs
    rcases List.mem_append.1 hs with h | h
    · exact hacc s h
    · rw [List.mem_singleton] at h
      subst h
      exact hcur hc
  · rw [if_neg hc]
    exact hacc

/-- Every record the scanning loop ever emits has a non-empty title or
non-empty content, because all four emission sites test exactly that. -/
theorem parseRun_nonempty_inv :
    ∀ (ls : List String) (i : Nat) (m : PMode) (cur : Slide) (acc : List Slide),
    (∀ s ∈ acc, s.title ≠ "" ∨ s.content ≠ "") →
    ∀ s ∈ parseRun ls i m cur acc, s.title ≠ "" ∨ s.content ≠ "" := by
  intro ls
  induction ls with
  | nil =>
    intro i m cur acc hacc
    cases m with
    | normal =>
      rw [parseRun_nil]
      exact flush_preserves hacc (fun h => h)
    | fence lang buf =>
      rw [parseRun_nil_fence]
      by_cases hc : cur.title ≠ "" ∨ pyJoin buf ≠ ""
      · rw [if_pos hc]
        intro s hs
        rcases List.mem_append.1 hs with h | h
        · exact hacc s h
        · rw [List.mem_singleton] at h
          subst h
          exact hc
      · rw [if_neg hc]
        exact hacc
  | cons l rest ih =>
    intro i m cur acc hacc
    cases m with
    | fence lang buf =>
      by_cases hcl : pyStartsWith (pyStrip l) "```" = true
      · rw [parseRun_fence_close hcl]
        exact ih _ _ _ _ hacc
      · rw [parseRun_fence_keep (bool_eq_false hcl)]
        exact ih _ _ _ _ hacc
    | normal =>
      by_cases h0 : pyStrip l = "---"
      · rw [parseRun_sep h0]
        exact ih _ _ _ _ (flush_preserves hacc (fun h => h))
      by_cases h1 : pyStartsWith (pyStrip l) "# " = true ∧ cur.title = ""
      · rw [parseRun_h1 h0 h1.1 h1.2]
        exact ih _ _ _ _ hacc
      by_cases h2 : pyStartsWith (pyStrip l) "## " = true
      · rw [parseRun_h2 h0 h1 h2]
        by_cases hc : cur.title ≠ "" ∨ cur.content ≠ ""
        · rw [if_pos hc]
          refine ih _ _ _ _ ?_
          intro s hs
          rcases List.mem_append.1 hs with h | h
          · exact hacc s h
          · rw [List.mem_singleton] at h
            subst h
            exact hc
        · rw [if_neg hc]
          exact ih _ _ _ _ hacc
      by_cases h3 : pyStartsWith (pyStrip l) "```" = true
      · rw [parseRun_fence_open h0 h1 (bool_eq_false h2) h3]
        exact ih _ _ _ _ hacc
      by_cases h4 : pyStrip l ≠ ""
      · rw [parseRun_content h0 h1 (bool_eq_false h2) (bool_eq_false h3) h4]
        exact ih _ _ _ _ hacc
      · rw [parseRun_blank (not_ne_iff.1 h4)]
        exact ih _ _ _ _ hacc

/-- A run over nothing but separators and blank lines emits nothing. -/
theorem parseRun_only_seps :
    ∀ (ls : List String), (∀ l ∈ ls, pyStrip l = "---" ∨ pyStrip l = "") →
    ∀ (i : Nat) (acc : List Slide), parseRun ls i PMode.normal {} acc = acc := by
  intro ls
  induction ls with
  | nil =>
    intro _ i acc
    rw [parseRun_nil]
    rw [if_neg (by simp)]
  | cons l rest ih =>
    intro hls i acc
    rcases hls l (by simp) with h | h
    · rw [parseRun_sep h]
      rw [if_neg (by simp)]
      exact ih (fun x hx => hls x (by simp [hx])) _ _
    · rw [parseRun_blank h]
      exact ih (fun x hx => hls x (by simp [hx])) _ _

/-! ### Claim C4 -/

/-- Claim C4: every record emitted by the parser has a non-empty title
or non-empty content (a boundary reached with nothing accumulated emits
no record), and a document consisting only of `---` separator lines and
blank lines parses to the empty record sequence. -/
theorem c4_no_empty_records :
    (∀ (doc : String), ∀ s ∈ parse_markdown_slides doc,
      s.title ≠ "" ∨ s.content ≠ "") ∧
    (∀ (doc : String), (∀ l ∈ pySplit doc, pyStrip l = "---" ∨ pyStrip l = "") →
      parse_markdown_slides doc = []) := by
  constructor
  · intro doc
    exact parseRun_nonempty_inv (pySplit doc) 0 PMode.normal {} [] (by simp)
  · intro doc hdoc
    exact parseRun_only_seps (pySplit doc) hdoc 0 []

/-- Witness for C4: records of a concrete mixed document are all
non-empty, and a separators-and-blanks document yields no records. -/
theorem c4_witness :
    (∀ s ∈ parse_markdown_slides "## A\nx\n---\n---\n\ny",
      s.title ≠ "" ∨ s.content ≠ "") ∧
    parse_markdown_slides "---\n\n---\n  \n---" = [] := by
  constructor
  · exact c4_no_empty_records.1 "## A\nx\n---\n---\n\ny"
  · exact c4_no_empty_records.2 "---\n\n---\n  \n---" (by decide)

/-! ### Only the first record can be the title slide (claim C3) -/

/-- Appending a record preserves "no `title` type beyond position 0",
provided the appended record is not `title`-typed whenever it lands at
a positive position. -/
theorem drop_one_append {acc : List Slide} {cur : Slide}
    (hacc : ∀ s ∈ acc.drop 1, s.type ≠ SlideType.title)
    (hcur : acc ≠ [] → cur.type ≠ SlideType.title) :
    ∀ s ∈ (acc ++ [cur]).drop 1, s.type ≠ SlideType.title := by
  cases acc with
  | nil => simp
  | cons a t =>
    intro s hs
    simp only [List.cons_append, List.drop_succ_cons, List.drop_zero] at hs
    rcases List.mem_append.1 hs with h | h
    · exact hacc s (by simpa using h)
    · rw [List.mem_singleton] at h
      subst h
      exact hcur (by simp)

theorem drop_one_flush {acc : List Slide} {cur : Slide}
    (hacc : ∀ s ∈ acc.drop 1, s.type ≠ SlideType.title)
    (hcur : acc ≠ [] → cur.type ≠ SlideType.title) :
    ∀ s ∈ ((if cur.title ≠ "" ∨ cur.content ≠ "" then acc ++ [cur] else acc)).drop 1,
      s.type ≠ SlideType.title := by
  by_cases hc : cur.title ≠ "" ∨ cur.content ≠ ""
  · rw [if_pos hc]
    exact drop_one_append hacc hcur
  · rw [if_neg hc]
    exact hacc

/-- Invariant: the `title` type is assigned only at line index 0, at
which point nothing has been emitted yet — so no record beyond the
first in the output can carry it. -/
theorem parseRun_title_first :
    ∀ (ls : List String) (i : Nat) (m : PMode) (cur : Slide) (acc : List Slide),
    (∀ s ∈ acc.drop 1, s.type ≠ SlideType.title) →
    (acc ≠ [] → cur.type ≠ SlideType.title) →
    (i = 0 → acc = []) →
    ∀ s ∈ (parseRun ls i m cur acc).drop 1, s.type ≠ SlideType.title := by
  intro ls
  induction ls with
  | nil =>
    intro i m cur acc hacc hcur hi
    cases m with
    | normal =>
      rw [parseRun_nil]
      exact drop_one_flush hacc hcur
    | fence lang buf =>
      rw [parseRun_nil_fence]
      by_cases hc : cur.title ≠ "" ∨ pyJoin buf ≠ ""
      · rw [if_pos hc]
        exact drop_one_append hacc (fun _ => by simp)
      · rw [if_neg hc]
        exact hacc
  | cons l rest ih =>
    intro i m cur acc hacc hcur hi
    cases m with
    | fence lang buf =>
      by_cases hcl : pyStartsWith (pyStrip l) "```" = true
      · rw [parseRun_fence_close hcl]
        exact ih _ _ _ _ hacc (fun _ => by simp) (fun h => absurd h (Nat.succ_ne_zero i))
      · rw [parseRun_fence_keep (bool_eq_false hcl)]
        exact ih _ _ _ _ hacc hcur (fun h => absurd h (Nat.succ_ne_zero i))
    | normal =>
      by_cases h0 : pyStrip l = "---"
      · rw [parseRun_sep h0]
        exact ih _ _ _ _ (drop_one_flush hacc hcur) (fun _ => by simp)
          (fun h => absurd h (Nat.succ_ne_zero i))
      by_cases h1 : pyStartsWith (pyStrip l) "# " = true ∧ cur.title = ""
      · rw [parseRun_h1 h0 h1.1 h1.2]
        refine ih _ _ _ _ hacc ?_ (fun h => absurd h (Nat.succ_ne_zero i))
        intro hne
        show (if i = 0 then SlideType.title else SlideType.content) ≠ SlideType.title
        by_cases hz : i = 0
        · exact absurd (hi hz) hne
        · rw [if_neg hz]
          simp
      by_cases h2 : pyStartsWith (pyStrip l) "## " = true
      · rw [parseRun_h2 h0 h1 h2]
        by_cases hc : cur.title ≠ "" ∨ cur.content ≠ ""
        · rw [if_pos hc]
          exact ih _ _ _ _ (drop_one_append hacc hcur) (fun _ => by simp)
            (fun h => absurd h (Nat.succ_ne_zero i))
        · rw [if_neg hc]
          exact ih _ _ _ _ hacc hcur (fun h => absurd h (Nat.succ_ne_zero i))
      by_cases h3 : pyStartsWith (pyStrip l) "```" = true
      · rw [parseRun_fence_open h0 h1 (bool_eq_false h2) h3]
        exact ih _ _ _ _ hacc hcur (fun h => absurd h (Nat.succ_ne_zero i))
      by_cases h4 : pyStrip l ≠ ""
      · rw [parseRun_content h0 h1 (bool_eq_false h2) (bool_eq_false h3) h4]
        exact ih _ _ _ _ hacc hcur (fun h => absurd h (Nat.succ_ne_zero i))
      · rw [parseRun_blank (not_ne_iff.1 h4)]
        exact ih _ _ _ _ hacc hcur (fun h => absurd h (Nat.succ_ne_zero i))

/-- Invariant: once past line 0 with no `title`-typed record anywhere,
none can ever appear. -/
theorem parseRun_no_title :
    ∀ (ls : List String) (i : Nat) (m : PMode) (cur : Slide) (acc : List Slide),
    1 ≤ i → cur.type ≠ SlideType.title → (∀ s ∈ acc, s.type ≠ SlideType.title) →
    ∀ s ∈ parseRun ls i m cur acc, s.type ≠ SlideType.title := by
  intro ls
  induction ls with
  | nil =>
    intro i m cur acc hi hcur hacc
    cases m with
    | normal =>
      rw [parseRun_nil]
      exact flush_preserves hacc (fun _ => hcur)
    | fence lang buf =>
      rw [parseRun_nil_fence]
      by_cases hc : cur.title ≠ "" ∨ pyJoin buf ≠ ""
      · rw [if_pos hc]
        intro s hs
        rcases List.mem_append.1 hs with h | h
        · exact hacc s h
        · rw [List.mem_singleton] at h
          subst h
          simp
      · rw [if_neg hc]
        exact hacc
  | cons l rest ih =>
    intro i m cur acc hi hcur hacc
    cases m with
    | fence lang buf =>
      by_cases hcl : pyStartsWith (pyStrip l) "```" = true
      · rw [parseRun_fence_close hcl]
        exact ih _ _ _ _ (by omega) (by simp) hacc
      · rw [parseRun_fence_keep (bool_eq_false hcl)]
        exact ih _ _ _ _ (by omega) hcur hacc
    | normal =>
      by_cases h0 : pyStrip l = "---"
      · rw [parseRun_sep h0]
        exact ih _ _ _ _ (by omega) (by simp) (flush_preserves hacc (fun _ => hcur))
      by_cases h1 : pyStartsWith (pyStrip l) "# " = true ∧ cur.title = ""
      · rw [parseRun_h1 h0 h1.1 h1.2]
        refine ih _ _ _ _ (by omega) ?_ hacc
        show (if i = 0 then SlideType.title else SlideType.content) ≠ SlideType.title
        rw [if_neg (by omega)]
        simp
      by_cases h2 : pyStartsWith (pyStrip l) "## " = true
      · rw [parseRun_h2 h0 h1 h2]
        by_cases hc : cur.title ≠ "" ∨ cur.content ≠ ""
        · rw [if_pos hc]
          refine ih _ _ _ _ (by omega) (by simp) ?_
          intro s hs
          rcases List.mem_append.1 hs with h | h
          · exact hacc s h
          · rw [List.mem_singleton] at h
            subst h
            exact hcur
        · rw [if_neg hc]
          exact ih _ _ _ _ (by omega) hcur hacc
      by_cases h3 : pyStartsWith (pyStrip l) "```" = true
      · rw [parseRun_fence_open h0 h1 (bool_eq_false h2) h3]
        exact ih _ _ _ _ (by omega) hcur hacc
      by_cases h4 : pyStrip l ≠ ""
      · rw [parseRun_content h0 h1 (bool_eq_false h2) (bool_eq_false h3) h4]
        exact ih _ _ _ _ (by omega) hcur hacc
      · rw [parseRun_blank (not_ne_iff.1 h4)]
        exact ih _ _ _ _ (by omega) hcur hacc

/-- If the document's very first line is not an H1 heading, no record
of the whole parse is `title`-typed. -/
theorem no_title_of_first_not_h1 :
    ∀ (l0 : String) (rest : List String),
    pyStartsWith (pyStrip l0) "# " = false →
    ∀ s ∈ parseRun (l0 :: rest) 0 PMode.normal {} [], s.type ≠ SlideType.title := by
  intro l0 rest h
  have h1 : ¬(pyStartsWith (pyStrip l0) "# " = true ∧ ({} : Slide).title = "") := by
    intro hc
    rw [h] at hc
    exact Bool.false_ne_true hc.1
  by_cases h0 : pyStrip l0 = "---"
  · rw [parseRun_sep h0]
    rw [if_neg (by simp)]
    exact parseRun_no_title _ _ _ _ _ (by omega) (by simp) (by simp)
  by_cases h2 : pyStartsWith (pyStrip l0) "## " = true
  · rw [parseRun_h2 h0 h1 h2]
    rw [if_neg (by simp)]
    exact parseRun_no_title _ _ _ _ _ (by omega) (by simp) (by simp)
  by_cases h3 : pyStartsWith (pyStrip l0) "```" = true
  · rw [parseRun_fence_open h0 h1 (bool_eq_false h2) h3]
    exact parseRun_no_title _ _ _ _ _ (by omega) (by simp) (by simp)
  by_cases h4 : pyStrip l0 ≠ ""
  · rw [parseRun_content h0 h1 (bool_eq_false h2) (bool_eq_false h3) h4]
    exact parseRun_no_title _ _ _ _ _ (by omega) (by simp) (by simp)
  · rw [parseRun_blank (not_ne_iff.1 h4)]
    exact parseRun_no_title _ _ _ _ _ (by omega) (by simp) (by simp)

/-! ### Claim C3 -/

/-- Claim C3, counterexample: in the document `"\n# Hello"` the first
(and only) emitted record is introduced by an H1 heading, yet its type
is `content`, not `title` — the `title` tag requires the H1 to sit on
the document's very first line (`i == 0` at line 302). -/
theorem c3_counterexample :
    parse_markdown_slides "\n# Hello" = [⟨"Hello", "", SlideType.content, none⟩] ∧
      pyStartsWith (pyStrip "# Hello") "# " = true ∧
      SlideType.content ≠ SlideType.title := by
  refine ⟨by decide, by decide, by decide⟩

/-- Claim C3 (amended): no record other than the very first is ever
tagged `title`; moreover a `title`-typed record can only arise when the
document's very first line is an H1 heading (an H1 preceded by any
earlier line — even a blank one — yields a `content`-typed record,
which is what the counterexample exhibits); and an H1 line scanned
while the current record already has a title does not set anything —
it is appended to the record as plain content. -/
theorem c3_title_only_first :
    (∀ (doc : String), ∀ s ∈ (parse_markdown_slides doc).drop 1,
      s.type ≠ SlideType.title) ∧
    (∀ (doc : String),
      pyStartsWith (pyStrip ((pySplit doc).headD "")) "# " = false →
      ∀ s ∈ parse_markdown_slides doc, s.type ≠ SlideType.title) ∧
    (∀ (l : String) (rest : List String) (i : Nat) (cur : Slide) (acc : List Slide),
      cur.title ≠ "" → pyStrip l ≠ "---" → pyStartsWith (pyStrip l) "# " = true →
      pyStartsWith (pyStrip l) "## " = false → pyStartsWith (pyStrip l) "```" = false →
      parseRun (l :: rest) i PMode.normal cur acc =
        parseRun rest (i + 1) PMode.normal
          { cur with content := cur.content ++ pyStrip l ++ "\n" } acc) := by
  refine ⟨?_, ?_, ?_⟩
  · intro doc
    exact parseRun_title_first (pySplit doc) 0 PMode.normal {} []
      (by simp) (by simp) (fun _ => rfl)
  · intro doc h
    exact no_title_of_first_not_h1 ((pySplitAux doc.data).1) ((pySplitAux doc.data).2) h
  · intro l rest i cur acc htitle h0 hh1 h2 h3
    refine parseRun_content h0 ?_ h2 h3 (ne_empty_of_startsWith_h hh1) rest i acc
    intro hc
    exact htitle hc.2

/-- Witness for C3: a concrete two-record document has no `title` type
past the first record; a document opening with a content line has none
at all; and a stray later H1 is appended as content. -/
theorem c3_witness :
    (∀ s ∈ (parse_markdown_slides "# T\n---\n## B\nx").drop 1,
      s.type ≠ SlideType.title) ∧
    (∀ s ∈ parse_markdown_slides "just text\n# Late", s.type ≠ SlideType.title) ∧
    parseRun ["# Later"] 4 PMode.normal ⟨"T", "c\n", SlideType.content, none⟩ []
      = [⟨"T", "c\n# Later\n", SlideType.content, none⟩] := by
  refine ⟨?_, ?_, ?_⟩
  · exact c3_title_only_first.1 "# T\n---\n## B\nx"
  · exact c3_title_only_first.2.1 "just text\n# Late" (by decide)
  · rw [c3_title_only_first.2.2 "# Later" [] 4 ⟨"T", "c\n", SlideType.content, none⟩ []
      (by decide) (by decide) (by decide) (by decide) (by decide)]
    decide

/-! ### Well-formed section documents (claim C5) -/

theorem bodyAppend_cons_ne {b : String} (hb : pyStrip b ≠ "") (c : String)
    (body : List String) :
    bodyAppend c (b :: body) = bodyAppend (c ++ pyStrip b ++ "\n") body := by
  simp only [bodyAppend, List.foldl_cons, if_pos hb]

theorem bodyAppend_cons_blank {b : String} (hb : pyStrip b = "") (c : String)
    (body : List String) :
    bodyAppend c (b :: body) = bodyAppend c body := by
  simp only [bodyAppend, List.foldl_cons, hb]
  simp

/-- Scanning a run of plain body lines appends each non-blank stripped
line (with a newline) to the current record's content. -/
theorem body_run :
    ∀ (body : List String), (∀ b ∈ body, BodyLine b) →
    ∀ (rest : List String) (i : Nat) (cur : Slide) (acc : List Slide),
    cur.title ≠ "" →
    parseRun (body ++ rest) i PMode.normal cur acc =
      parseRun rest (i + body.length) PMode.normal
        { cur with content := bodyAppend cur.content body } acc := by
  intro body
  induction body with
  | nil =>
    intro _ rest i cur acc _
    rfl
  | cons b body' ih =>
    intro hbody rest i cur acc htitle
    have hb : BodyLine b := hbody b (by simp)
    have h1 : ¬(pyStartsWith (pyStrip b) "# " = true ∧ cur.title = "") :=
      fun hc => htitle hc.2
    have harith : i + 1 + body'.length = i + (b :: body').length := by
      simp [List.length_cons]
      omega
    by_cases hstrip : pyStrip b ≠ ""
    · rw [List.cons_append, parseRun_content hb.1 h1 hb.2.1 hb.2.2 hstrip]
      rw [ih (fun x hx => hbody x (by simp [hx])) rest (i + 1)
        { cur with content := cur.content ++ pyStrip b ++ "\n" } acc htitle]
      rw [harith, bodyAppend_cons_ne hstrip]
    · rw [List.cons_append, parseRun_blank (not_ne_iff.1 hstrip)]
      rw [ih (fun x hx => hbody x (by simp [hx])) rest (i + 1) cur acc htitle]
      rw [harith, bodyAppend_cons_blank (not_ne_iff.1 hstrip)]

/-- Scanning a sequence of well-formed sections from a state whose
current record has a title: the current record is flushed and each
section contributes exactly one record, in order. -/
theorem secs_run :
    ∀ (secs : List (String × List String)),
    (∀ sec ∈ secs, HeadLine sec.1 ∧ ∀ b ∈ sec.2, BodyLine b) →
    ∀ (i : Nat) (cur : Slide) (acc : List Slide), cur.title ≠ "" →
    parseRun (sectionsLines secs) i PMode.normal cur acc =
      acc ++ cur :: secs.map secSlide := by
  intro secs
  induction secs with
  | nil =>
    intro _ i cur acc htitle
    show parseRun [] i PMode.normal cur acc = acc ++ [cur]
    rw [parseRun_nil, if_pos (Or.inl htitle)]
  | cons sec secs' ih =>
    intro hsecs i cur acc htitle
    obtain ⟨l, body⟩ := sec
    have hl : HeadLine l := (hsecs (l, body) (by simp)).1
    have hbody : ∀ b ∈ body, BodyLine b := (hsecs (l, body) (by simp)).2
    have hshape : sectionsLines ((l, body) :: secs') =
        l :: (body ++ sectionsLines secs') := by
      simp [sectionsLines]
    rw [hshape]
    rw [parseRun_h2 hl.1 (fun hc => by rw [hl.2.1] at hc; exact Bool.false_ne_true hc.1)
      hl.2.2.1]
    rw [if_pos (Or.inl htitle)]
    rw [body_run body hbody _ _ _ _ hl.2.2.2]
    rw [ih (fun x hx => hsecs x (by simp [hx])) _ _ _ hl.2.2.2]
    simp [secSlide, secTitleOf]

/-! ### Claim C5 -/

/-- Claim C5: a document made of N well-formed `## `-delimited sections
(each with non-empty heading text, bodies free of separators, headings
and fences) parses to exactly N records, one per section and in source
order; when a well-formed H1 title block precedes the first `## `
heading, it contributes one extra leading record (tagged `title`), for
N + 1 records in total. -/
theorem c5_section_counts :
    (∀ (doc : String) (sec0 : String × List String)
       (secs : List (String × List String)),
      pySplit doc = sectionsLines (sec0 :: secs) →
      (∀ sec ∈ sec0 :: secs, HeadLine sec.1 ∧ ∀ b ∈ sec.2, BodyLine b) →
      parse_markdown_slides doc = (sec0 :: secs).map secSlide ∧
        (parse_markdown_slides doc).length = secs.length + 1) ∧
    (∀ (doc : String) (h1l : String) (tbody : List String)
       (sec0 : String × List String) (secs : List (String × List String)),
      pySplit doc = (h1l :: tbody) ++ sectionsLines (sec0 :: secs) →
      H1Line h1l → (∀ b ∈ tbody, BodyLine b) →
      (∀ sec ∈ sec0 :: secs, HeadLine sec.1 ∧ ∀ b ∈ sec.2, BodyLine b) →
      parse_markdown_slides doc =
        ⟨h1TitleOf h1l, bodyAppend "" tbody, SlideType.title, none⟩ ::
          (sec0 :: secs).map secSlide ∧
        (parse_markdown_slides doc).length = secs.length + 2) := by
  constructor
  · intro doc sec0 secs hsplit hsecs
    obtain ⟨l0, body0⟩ := sec0
    have hl : HeadLine l0 := (hsecs (l0, body0) (by simp)).1
    have hbody0 : ∀ b ∈ body0, BodyLine b := (hsecs (l0, body0) (by simp)).2
    have hmain : parse_markdown_slides doc = ((l0, body0) :: secs).map secSlide := by
      show parseRun (pySplit doc) 0 PMode.normal {} [] = _
      rw [hsplit]
      have hshape : sectionsLines ((l0, body0) :: secs) =
          l0 :: (body0 ++ sectionsLines secs) := by
        simp [sectionsLines]
      rw [hshape]
      rw [parseRun_h2 hl.1
        (fun hc => by rw [hl.2.1] at hc; exact Bool.false_ne_true hc.1) hl.2.2.1]
      rw [if_neg (by simp)]
      rw [body_run body0 hbody0 _ _ _ _ hl.2.2.2]
      rw [secs_run secs (fun x hx => hsecs x (by simp [hx])) _ _ _ hl.2.2.2]
      simp [secSlide, secTitleOf]
    exact ⟨hmain, by rw [hmain]; simp⟩
  · intro doc h1l tbody sec0 secs hsplit hh1 htbody hsecs
    have hmain : parse_markdown_slides doc =
        ⟨h1TitleOf h1l, bodyAppend "" tbody, SlideType.title, none⟩ ::
          (sec0 :: secs).map secSlide := by
      show parseRun (pySplit doc) 0 PMode.normal {} [] = _
      rw [hsplit, List.cons_append]
      rw [parseRun_h1 hh1.1 hh1.2.1 rfl]
      rw [body_run tbody htbody _ _ _ _ hh1.2.2]
      rw [secs_run (sec0 :: secs) hsecs _ _ _ hh1.2.2]
      simp [h1TitleOf]
    exact ⟨hmain, by rw [hmain]; simp⟩

/-- Witness for C5: a two-section document yields two records in source
order, and the same document preceded by an H1 title block and an
author line yields three. -/
theorem c5_witness :
    parse_markdown_slides "## A\nx\n## B" =
      [⟨"A", "x\n", SlideType.content, none⟩, ⟨"B", "", SlideType.content, none⟩] ∧
    parse_markdown_slides "# T\na\n## A\nx\n## B\ny" =
      [⟨"T", "a\n", SlideType.title, none⟩, ⟨"A", "x\n", SlideType.content, none⟩,
       ⟨"B", "y\n", SlideType.content, none⟩] := by
  constructor
  · have h := c5_section_counts.1 "## A\nx\n## B" ("## A", ["x"]) [("## B", [])]
      (by decide) (by decide)
    rw [h.1]
    decide
  · have h := c5_section_counts.2 "# T\na\n## A\nx\n## B\ny" "# T" ["a"]
      ("## A", ["x"]) [("## B", ["y"])] (by decide) (by decide) (by decide) (by decide)
    rw [h.1]
    decide

/-! ### Shape of non-code content (claim C10)

For a record that never went through a code fence, `content` is a
concatenation of `stripped-line ++ "\n"` pieces (line 330).  We record
this shape together with the facts that each piece is non-empty,
whitespace-free at both ends, and newline-free. -/

/-- A content line as produced by the regular-content branch: non-empty,
no leading or trailing whitespace, no embedded newline. -/
def GoodLine (t : String) : Prop :=
  t.data ≠ [] ∧ isPyWs (t.data.headD 'a') = false ∧
    isPyWs (t.data.getLastD 'a') = false ∧ '\n' ∉ t.data

/-- `t₁ ++ "\n" ++ t₂ ++ "\n" ++ ...` — the accumulated content of a
record built only from regular-content lines. -/
def linesBlob : List String → String
  | [] => ""
  | t :: ts => t ++ "\n" ++ linesBlob ts

/-- Content made of good lines, each additionally satisfying `R`. -/
def GoodContent (R : String → Prop) (c : String) : Prop :=
  ∃ ts, c = linesBlob ts ∧ ∀ t ∈ ts, GoodLine t ∧ R t

/-- The inter-line character list `t₁ ++ '\n' :: t₂ ++ ...` (no
trailing newline). -/
def interNl : List String → List Char
  | [] => []
  | [t] => t.data
  | t :: t' :: ts => t.data ++ '\n' :: interNl (t' :: ts)

theorem pyStrip_good {l : String} (hne : pyStrip l ≠ "") (hnl : '\n' ∉ l.data) :
    GoodLine (pyStrip l) := by
  have hdata : (pyStrip l).data ≠ [] := string_ne_empty_iff.1 hne
  refine ⟨hdata, ?_, ?_, ?_⟩
  · match hd : (pyStrip l).data with
    | [] => exact absurd hd hdata
    | c :: t => exact pyStrip_head_not_ws hd
  · match hlast : (pyStrip l).data.getLast? with
    | none => exact absurd (List.getLast?_eq_none_iff.1 hlast) hdata
    | some c =>
      rw [List.getLastD_eq_getLast?, hlast]
      exact pyStrip_last_not_ws hlast
  · intro hmem
    exact hnl (pyStrip_mem hmem)

theorem string_append_assoc (a b c : String) : (a ++ b) ++ c = a ++ (b ++ c) := by
  apply String.ext
  simp [string_data_append, List.append_assoc]

theorem linesBlob_snoc (ts : List String) (t : String) :
    linesBlob (ts ++ [t]) = (linesBlob ts ++ t) ++ "\n" := by
  induction ts with
  | nil =>
    apply String.ext
    simp [linesBlob, string_data_append]
  | cons u ts' ih =>
    have hstep : linesBlob ((u :: ts') ++ [t]) = u ++ "\n" ++ linesBlob (ts' ++ [t]) := rfl
    rw [hstep, ih]
    apply String.ext
    simp [linesBlob, string_data_append, List.append_assoc]

/-- Appending one more good line keeps the shape. -/
theorem goodContent_append {R : String → Prop} {c t : String}
    (hc : GoodContent R c) (ht : GoodLine t) (hR : R t) :
    GoodContent R (c ++ t ++ "\n") := by
  obtain ⟨ts, hts, hall⟩ := hc
  refine ⟨ts ++ [t], ?_, ?_⟩
  · rw [linesBlob_snoc, hts]
  · intro x hx
    rcases List.mem_append.1 hx with h | h
    · exact hall x h
    · rw [List.mem_singleton] at h
      subst h
      exact ⟨ht, hR⟩

theorem goodContent_nil (R : String → Prop) : GoodContent R "" :=
  ⟨[], rfl, by simp⟩

/-- Dropping a trailing newline before right-stripping changes nothing. -/
theorem stripRight_newline (x : List Char) :
    pyStripRightData (x ++ ['\n']) = pyStripRightData x := by
  simp only [pyStripRightData, List.reverse_append, List.reverse_cons,
    List.reverse_nil, List.nil_append, List.cons_append]
  rw [List.dropWhile_cons_of_pos (by simp [isPyWs])]

/-- Right strip is the identity when the last character is not
whitespace. -/
theorem stripRight_id {x : List Char}
    (h : ∀ c, x.getLast? = some c → isPyWs c = false) :
    pyStripRightData x = x := by
  match hrev : x.reverse with
  | [] =>
    have : x = [] := by simpa using congrArg List.reverse hrev
    simp [pyStripRightData, this]
  | c :: y =>
    have hlast : x.getLast? = some c := by
      rw [List.getLast?_eq_head?_reverse, hrev]
      rfl
    simp only [pyStripRightData, hrev]
    rw [List.dropWhile_cons_of_neg (by simp [h c hlast])]
    rw [← hrev, List.reverse_reverse]

/-- Left strip is the identity when the first character is not
whitespace. -/
theorem stripLeft_id {x : List Char}
    (h : ∀ c t, x = c :: t → isPyWs c = false) :
    pyStripLeftData x = x := by
  match x with
  | [] => rfl
  | c :: t =>
    simp only [pyStripLeftData]
    rw [List.dropWhile_cons_of_neg (by simp [h c t rfl])]

theorem interNl_ne_nil {t : String} (ht : t.data ≠ []) (ts : List String) :
    interNl (t :: ts) ≠ [] := by
  cases ts with
  | nil => exact ht
  | cons t' ts' =>
    simp only [interNl]
    intro hc
    rcases List.append_eq_nil.1 hc with ⟨h1, _⟩
    exact ht h1

/-- The head of `interNl` is not whitespace when all lines are good. -/
theorem interNl_head_not_ws {ts : List String} (hts : ∀ t ∈ ts, GoodLine t) :
    ∀ c z, interNl ts = c :: z → isPyWs c = false := by
  intro c z h
  cases ts with
  | nil => simp [interNl] at h
  | cons t ts' =>
    have hgood := hts t (by simp)
    cases ts' with
    | nil =>
      simp only [interNl] at h
      have hc : t.data.headD 'a' = c := by rw [h]; rfl
      rw [← hc]
      exact hgood.2.1
    | cons t' ts'' =>
      simp only [interNl] at h
      match hd : t.data with
      | [] => exact absurd hd hgood.1
      | c0 :: tt =>
        rw [hd, List.cons_append] at h
        have hcc : c0 = c := (List.cons.injEq _ _ _ _ ▸ h).1
        have hh := hgood.2.1
        rw [hd] at hh
        rw [← hcc]
        simpa using hh

/-- The last character of `interNl` is not whitespace when all lines are
good. -/
theorem interNl_last_not_ws {ts : List String} (hts : ∀ t ∈ ts, GoodLine t) :
    ∀ c, (interNl ts).getLast? = some c → isPyWs c = false := by
  induction ts with
  | nil =>
    intro c h
    simp [interNl] at h
  | cons t ts' ih =>
    intro c h
    have hgood := hts t (by simp)
    cases ts' with
    | nil =>
      simp only [interNl] at h
      have hlast := hgood.2.2.1
      rw [List.getLastD_eq_getLast?, h] at hlast
      exact hlast
    | cons t' ts'' =>
      simp only [interNl] at h
      have hne : interNl (t' :: ts'') ≠ [] :=
        interNl_ne_nil (hts t' (by simp)).1 ts''
      match hz : (interNl (t' :: ts'')).getLast? with
      | none => exact absurd (List.getLast?_eq_none_iff.1 hz) hne
      | some d =>
        have hcons : ('\n' :: interNl (t' :: ts'')).getLast? = some d := by
          show ((['\n'] : List Char) ++ interNl (t' :: ts'')).getLast? = some d
          rw [List.getLast?_append, hz]
          rfl
        rw [List.getLast?_append, hcons] at h
        have hcd : c = d := by
          cases hw : t.data.getLast? with
          | none => rw [hw] at h; simp [Option.or] at h; exact h.symm
          | some e => rw [hw] at h; simp [Option.or] at h; exact h.symm
        rw [hcd]
        exact ih (fun x hx => hts x (by simp [hx])) d hz

theorem linesBlob_data {ts : List String} (h : ts ≠ []) :
    (linesBlob ts).data = interNl ts ++ ['\n'] := by
  induction ts with
  | nil => exact absurd rfl h
  | cons t ts' ih =>
    cases ts' with
    | nil => simp [linesBlob, interNl, string_data_append]
    | cons t' ts'' =>
      have hstep : (linesBlob (t :: t' :: ts'')).data =
          t.data ++ ['\n'] ++ (linesBlob (t' :: ts'')).data := by
        simp [linesBlob, string_data_append]
      rw [hstep, ih (by simp)]
      simp [interNl, List.append_assoc]

/-- Stripping the accumulated blob of good lines removes exactly the
trailing newline. -/
theorem pyStrip_linesBlob {ts : List String} (hne : ts ≠ [])
    (hts : ∀ t ∈ ts, GoodLine t) :
    pyStrip (linesBlob ts) = ⟨interNl ts⟩ := by
  show (⟨pyStripRightData (pyStripLeftData (linesBlob ts).data)⟩ : String) = _
  rw [linesBlob_data hne]
  have hleft : pyStripLeftData (interNl ts ++ ['\n']) = interNl ts ++ ['\n'] := by
    apply stripLeft_id
    intro c t h
    match ts, hne with
    | t0 :: ts0, _ =>
      have hnn : interNl (t0 :: ts0) ≠ [] := interNl_ne_nil (hts t0 (by simp)).1 ts0
      match hz : interNl (t0 :: ts0) with
      | [] => exact absurd hz hnn
      | c0 :: z0 =>
        rw [hz, List.cons_append] at h
        have : c0 = c := (List.cons.injEq _ _ _ _ ▸ h).1
        rw [← this]
        exact interNl_head_not_ws hts c0 z0 hz
  rw [hleft, stripRight_newline, stripRight_id (interNl_last_not_ws hts)]

theorem pySplitAux_mid {a : List Char} (h : '\n' ∉ a) :
    ∀ cs, pySplitAux (a ++ '\n' :: cs) =
      (⟨a⟩, (pySplitAux cs).1 :: (pySplitAux cs).2) := by
  induction a with
  | nil =>
    intro cs
    rfl
  | cons c a' ih =>
    intro cs
    have hc : ¬(c = '\n') := fun hc => h (by simp [hc])
    have ha' : '\n' ∉ a' := fun hm => h (by simp [hm])
    show pySplitAux (c :: (a' ++ '\n' :: cs)) = _
    simp only [pySplitAux, ih ha', if_neg hc]

theorem pySplitAux_no_nl {a : List Char} (h : '\n' ∉ a) :
    pySplitAux a = (⟨a⟩, []) := by
  induction a with
  | nil => rfl
  | cons c a' ih =>
    have hc : ¬(c = '\n') := fun hc => h (by simp [hc])
    have ha' : '\n' ∉ a' := fun hm => h (by simp [hm])
    simp only [pySplitAux, ih ha', if_neg hc]

/-- Splitting the stripped blob recovers exactly the accumulated
lines. -/
theorem pySplit_interNl :
    ∀ (ts : List String), ts ≠ [] → (∀ t ∈ ts, GoodLine t) →
    pySplit ⟨interNl ts⟩ = ts := by
  intro ts
  induction ts with
  | nil => exact fun h _ => absurd rfl h
  | cons t ts' ih =>
    intro _ hts
    cases ts' with
    | nil =>
      show pySplit ⟨t.data⟩ = [t]
      simp only [pySplit, pySplitAux_no_nl (hts t (by simp)).2.2.2]
    | cons t' ts'' =>
      have hstep : interNl (t :: t' :: ts'') = t.data ++ '\n' :: interNl (t' :: ts'') :=
        rfl
      show pySplit ⟨interNl (t :: t' :: ts'')⟩ = t :: t' :: ts''
      simp only [pySplit, hstep]
      rw [pySplitAux_mid (hts t (by simp)).2.2.2]
      have hih := ih (by simp) (fun x hx => hts x (by simp [hx]))
      simp only [pySplit] at hih
      simp [hih]

/-- A good line is already stripped. -/
theorem good_strip_id {t : String} (ht : GoodLine t) : pyStrip t = t := by
  show (⟨pyStripRightData (pyStripLeftData t.data)⟩ : String) = t
  rw [stripLeft_id, stripRight_id]
  · intro c h
    have := ht.2.2.1
    rw [List.getLastD_eq_getLast?, h] at this
    simpa using this
  · intro c tt h
    have := ht.2.1
    rw [h] at this
    simpa using this

/-- The renderer lines of good content: either the single empty line of
empty content, or exactly the accumulated good lines. -/
theorem contentLines_of_goodContent {R : String → Prop} {c : String}
    (h : GoodContent R c) :
    contentLines c = [""] ∨
      (∃ ts, contentLines c = ts ∧ ts ≠ [] ∧ ∀ t ∈ ts, GoodLine t ∧ R t) := by
  obtain ⟨ts, rfl, hts⟩ := h
  cases ts with
  | nil =>
    left
    rfl
  | cons t ts' =>
    right
    refine ⟨t :: ts', ?_, by simp, hts⟩
    show pySplit (pyStrip (linesBlob (t :: ts'))) = t :: ts'
    rw [pyStrip_linesBlob (by simp) (fun x hx => (hts x hx).1)]
    exact pySplit_interNl (t :: ts') (by simp) (fun x hx => (hts x hx).1)

/-- On a good line, the renderer's sub-bullet branch cannot fire. -/
theorem classify_not_subBullet {l : String} (hl : GoodLine l) :
    pyStartsWith l "  - " = false ∧ classifyLine l ≠ LineStyle.subBullet := by
  have hstart : pyStartsWith l "  - " = false := by
    match hd : l.data with
    | [] => exact absurd hd hl.1
    | c :: t =>
      have hw : isPyWs c = false := by
        have := hl.2.1
        rw [hd] at this
        simpa using this
      exact not_startsWith_indent hd hw
  refine ⟨hstart, ?_⟩
  simp only [classifyLine]
  by_cases h1 : (pyStartsWith l "- " || pyStartsWith l "‚Ä¢ ") = true
  · rw [if_pos h1]
    simp
  · rw [if_neg h1, if_neg (by simp [hstart])]
    split
    · simp
    split
    · simp
    split
    · simp
    · simp

/-- No component of `pySplit` contains a newline. -/
theorem pySplitAux_no_newline :
    ∀ (cs : List Char), ('\n' ∉ (pySplitAux cs).1.data) ∧
      (∀ l ∈ (pySplitAux cs).2, '\n' ∉ l.data) := by
  intro cs
  induction cs with
  | nil => exact ⟨by decide, by decide⟩
  | cons c rest ih =>
    by_cases hc : c = '\n'
    · have hstep : pySplitAux (c :: rest) =
          ("", (pySplitAux rest).1 :: (pySplitAux rest).2) := by
        simp only [pySplitAux, if_pos hc]
      rw [hstep]
      refine ⟨by simp, ?_⟩
      intro l hl
      rcases List.mem_cons.1 hl with h | h
      · subst h
        exact ih.1
      · exact ih.2 l h
    · have hstep : pySplitAux (c :: rest) =
          (⟨c :: (pySplitAux rest).1.data⟩, (pySplitAux rest).2) := by
        simp only [pySplitAux, if_neg hc]
      rw [hstep]
      refine ⟨?_, ih.2⟩
      intro hm
      rcases List.mem_cons.1 hm with h | h
      · exact hc h.symm
      · exact ih.1 h

theorem pySplit_no_newline (s : String) : ∀ l ∈ pySplit s, '\n' ∉ l.data := by
  intro l hl
  rcases List.mem_cons.1 hl with h | h
  · subst h
    exact (pySplitAux_no_newline s.data).1
  · exact (pySplitAux_no_newline s.data).2 l h

/-- Invariant: any emitted record that is not `code`-typed and never
went through a fence (its `language` key is unset) has content of the
accumulated-stripped-lines shape, every line satisfying `R` whenever
`R` holds of every stripped input line. -/
theorem parseRun_content_shape (R : String → Prop) :
    ∀ (ls : List String),
    (∀ l ∈ ls, '\n' ∉ l.data ∧ (pyStrip l ≠ "" → R (pyStrip l))) →
    ∀ (i : Nat) (m : PMode) (cur : Slide) (acc : List Slide),
    (cur.language = none → GoodContent R cur.content) →
    (∀ s ∈ acc, s.type ≠ SlideType.code → s.language = none → GoodContent R s.content) →
    ∀ s ∈ parseRun ls i m cur acc,
      s.type ≠ SlideType.code → s.language = none → GoodContent R s.content := by
  intro ls
  induction ls with
  | nil =>
    intro _ i m cur acc hcur hacc
    cases m with
    | normal =>
      rw [parseRun_nil]
      exact flush_preserves hacc (fun _ _ hl => hcur hl)
    | fence lang buf =>
      rw [parseRun_nil_fence]
      by_cases hc : cur.title ≠ "" ∨ pyJoin buf ≠ ""
      · rw [if_pos hc]
        intro s hs
        rcases List.mem_append.1 hs with h | h
        · exact hacc s h
        · rw [List.mem_singleton] at h
          subst h
          intro _ hl
          simp at hl
      · rw [if_neg hc]
        exact hacc
  | cons l rest ih =>
    intro hls i m cur acc hcur hacc
    have hrest : ∀ x ∈ rest, '\n' ∉ x.data ∧ (pyStrip x ≠ "" → R (pyStrip x)) :=
      fun x hx => hls x (by simp [hx])
    have hl := hls l (by simp)
    cases m with
    | fence lang buf =>
      by_cases hcl : pyStartsWith (pyStrip l) "```" = true
      · rw [parseRun_fence_close hcl]
        refine ih hrest _ _ _ _ ?_ hacc
        intro hlang
        simp at hlang
      · rw [parseRun_fence_keep (bool_eq_false hcl)]
        exact ih hrest _ _ _ _ hcur hacc
    | normal =>
      by_cases h0 : pyStrip l = "---"
      · rw [parseRun_sep h0]
        exact ih hrest _ _ _ _ (fun _ => goodContent_nil R)
          (flush_preserves hacc (fun _ _ hlang => hcur hlang))
      by_cases h1 : pyStartsWith (pyStrip l) "# " = true ∧ cur.title = ""
      · rw [parseRun_h1 h0 h1.1 h1.2]
        exact ih hrest _ _ _ _ hcur hacc
      by_cases h2 : pyStartsWith (pyStrip l) "## " = true
      · rw [parseRun_h2 h0 h1 h2]
        by_cases hc : cur.title ≠ "" ∨ cur.content ≠ ""
        · rw [if_pos hc]
          refine ih hrest _ _ _ _ (fun _ => goodContent_nil R) ?_
          intro s hs
          rcases List.mem_append.1 hs with h | h
          · exact hacc s h
          · rw [List.mem_singleton] at h
            subst h
            intro hty hlang
            exact hcur hlang
        · rw [if_neg hc]
          exact ih hrest _ _ _ _ hcur hacc
      by_cases h3 : pyStartsWith (pyStrip l) "```" = true
      · rw [parseRun_fence_open h0 h1 (bool_eq_false h2) h3]
        exact ih hrest _ _ _ _ hcur hacc
      by_cases h4 : pyStrip l ≠ ""
      · rw [parseRun_content h0 h1 (bool_eq_false h2) (bool_eq_false h3) h4]
        refine ih hrest _ _ _ _ ?_ hacc
        intro hlang
        exact goodContent_append (hcur hlang) (pyStrip_good h4 hl.1) (hl.2 h4)
      · rw [parseRun_blank (not_ne_iff.1 h4)]
        exact ih hrest _ _ _ _ hcur hacc

/-! ### Claim C10 -/

/-- Claim C10, counterexample: in
`"```py\n  - a\n  - b\n```\n# T"` the fence's verbatim (indented) body
is captured, and the later H1 line then flips the record's type back to
`content` (line 302 overwrites `type`), so a NON-code record reaches
the renderer with content lines that begin with whitespace — and the
renderer's two-space sub-bullet branch fires on the second line. -/
theorem c10_counterexample :
    parse_markdown_slides "```py\n  - a\n  - b\n```\n# T"
        = [⟨"T", "  - a\n  - b", SlideType.content, some "py"⟩] ∧
      (contentLines "  - a\n  - b").map classifyLine
        = [LineStyle.bullet, LineStyle.subBullet] := by
  constructor
  · decide
  · decide

/-- Claim C10 (amended): for every record emitted by the parser that is
not `code`-typed AND never went through a code fence (equivalently,
whose `language` key is unset — a fence followed by an H1 can produce a
`content`-typed record that keeps verbatim fence text, as the
counterexample shows), every line the renderer would iterate over is
either the single empty line of empty content or a non-empty line that
equals some source line stripped of leading and trailing whitespace
(in particular it is its own strip, so it begins with no whitespace);
consequently the renderer's two-space-indented sub-bullet branch never
fires on such content. -/
theorem c10_stripped_content :
    ∀ (doc : String), ∀ s ∈ parse_markdown_slides doc,
    s.type ≠ SlideType.code → s.language = none →
    (∀ l ∈ contentLines s.content,
      pyStartsWith l "  - " = false ∧ classifyLine l ≠ LineStyle.subBullet) ∧
    (∀ l ∈ contentLines s.content,
      l = "" ∨ (l ≠ "" ∧ pyStrip l = l ∧ l ∈ (pySplit doc).map pyStrip)) := by
  intro doc s hs hty hlang
  have hgood : GoodContent (fun t => t ∈ (pySplit doc).map pyStrip) s.content := by
    refine parseRun_content_shape _ (pySplit doc) ?_ 0 PMode.normal {} []
      (fun _ => goodContent_nil _) (by simp) s hs hty hlang
    intro l hlmem
    exact ⟨pySplit_no_newline doc l hlmem, fun _ => List.mem_map_of_mem pyStrip hlmem⟩
  rcases contentLines_of_goodContent hgood with hone | ⟨ts, hEq, hne, hall⟩
  · rw [hone]
    constructor
    · intro l hl
      rw [List.mem_singleton] at hl
      subst hl
      exact ⟨by decide, by decide⟩
    · intro l hl
      rw [List.mem_singleton] at hl
      exact Or.inl hl
  · rw [hEq]
    constructor
    · intro l hl
      exact classify_not_subBullet (hall l hl).1
    · intro l hl
      refine Or.inr ⟨string_ne_empty_iff.2 (hall l hl).1.1, good_strip_id (hall l hl).1,
        (hall l hl).2⟩

/-- Witness for C10: the parser-produced record of a document with an
indented sub-bullet in the source reaches the renderer with that
indentation stripped, and no line trips the sub-bullet branch. -/
theorem c10_witness :
    pyStartsWith "- x" "  - " = false ∧ classifyLine "- x" ≠ LineStyle.subBullet ∧
      pyStartsWith "rest" "  - " = false ∧ classifyLine "rest" ≠ LineStyle.subBullet := by
  have h := c10_stripped_content "## A\n  - x\nrest"
    ⟨"A", "- x\nrest\n", SlideType.content, none⟩ (by decide) (by decide) (by decide)
  exact ⟨(h.1 "- x" (by decide)).1, (h.1 "- x" (by decide)).2,
    (h.1 "rest" (by decide)).1, (h.1 "rest" (by decide)).2⟩

/-! ### Footer rules of the rendered deck (claim C7) -/

/-- The deck is rendered pointwise: the record at 0-based index `k` is
dispatched with enumeration index `k + 1` and with `k + 1` slides in
the presentation after its own `add_*` call. -/
theorem renderDeckAux_get :
    ∀ (slides : List Slide) (i count k : Nat),
    (renderDeckAux slides i count)[k]? =
      (slides[k]?).map (fun s => dispatchSlide (i + k) (count + k) s) := by
  intro slides
  induction slides with
  | nil =>
    intro i count k
    simp [renderDeckAux]
  | cons s rest ih =>
    intro i count k
    cases k with
    | zero => simp [renderDeckAux]
    | succ k' =>
      simp only [renderDeckAux, List.getElem?_cons_succ]
      rw [ih (i + 1) (count + 1) k']
      have h1 : i + 1 + k' = i + (k' + 1) := by omega
      have h2 : count + 1 + k' = count + (k' + 1) := by omega
      rw [h1, h2]

/-- Claim C7, counterexample: a code slide whose title contains the
divider keyword `"Questions"` still renders as a code slide WITH a
footer (the orchestrator tests `type == "code"` at line 378 before the
keyword test at line 385), contradicting the claim that every slide
whose title matches a divider keyword renders without a footer. -/
theorem c7_counterexample :
    parse_markdown_slides "## Questions\n```js\nx\n```"
        = [⟨"Questions", "x", SlideType.code, some "js"⟩] ∧
      isSectionKeyword "Questions" = true ∧
      renderDeck (parse_markdown_slides "## Questions\n```js\nx\n```")
        = [⟨RenderKind.codeSlide, some 1⟩] := by
  refine ⟨by decide, by decide, by decide⟩

/-- Claim C7 (amended): the rendered deck is pointwise
`dispatchSlide (k+1) (k+1)`, and the slide at 0-based position `k`
renders without a footer exactly when it is the title slide (a
`title`-typed record at position 0) or a NON-code slide whose title
matches a divider keyword; every other slide — every code slide (even
one whose title matches a keyword) and every plain content slide —
renders with a footer carrying the 1-based page number `k + 1`, its
position in the deck counting all slides. -/
theorem c7_footer_rules :
    ∀ (slides : List Slide) (k : Nat) (s : Slide), slides[k]? = some s →
      (renderDeck slides)[k]? = some (dispatchSlide (k + 1) k s) ∧
      ((dispatchSlide (k + 1) k s).footer = none ∨
        (dispatchSlide (k + 1) k s).footer = some (k + 1)) ∧
      ((dispatchSlide (k + 1) k s).footer = none ↔
        ((s.type = SlideType.title ∧ k = 0) ∨
          (s.type ≠ SlideType.code ∧ isSectionKeyword s.title = true))) := by
  intro slides k s hk
  have hget : (renderDeck slides)[k]? = some (dispatchSlide (k + 1) k s) := by
    show (renderDeckAux slides 1 0)[k]? = _
    rw [renderDeckAux_get, hk]
    have h1 : 1 + k = k + 1 := by omega
    have h2 : 0 + k = k := by omega
    rw [h1, h2]
    rfl
  refine ⟨hget, ?_, ?_⟩
  all_goals
    simp only [dispatchSlide]
    by_cases hT : s.type = SlideType.title ∧ k + 1 = 1
  case pos =>
    rw [if_pos hT]
    exact Or.inl rfl
  case neg =>
    rw [if_neg hT]
    by_cases hC : s.type = SlideType.code
    · rw [if_pos hC]
      exact Or.inr rfl
    · rw [if_neg hC]
      by_cases hK : isSectionKeyword s.title = true
      · rw [if_pos hK]
        exact Or.inl rfl
      · rw [if_neg hK]
        exact Or.inr rfl
  case pos =>
    rw [if_pos hT]
    constructor
    · intro _
      exact Or.inl ⟨hT.1, by omega⟩
    · intro _
      rfl
  case neg =>
    rw [if_neg hT]
    by_cases hC : s.type = SlideType.code
    · rw [if_pos hC]
      constructor
      · intro h
        simp at h
      · intro h
        rcases h with ⟨h1, h2⟩ | ⟨h1, _⟩
        · exact absurd ⟨h1, by omega⟩ hT
        · exact absurd hC h1
    · rw [if_neg hC]
      by_cases hK : isSectionKeyword s.title = true
      · rw [if_pos hK]
        constructor
        · intro _
          exact Or.inr ⟨hC, hK⟩
        · intro _
          rfl
      · rw [if_neg hK]
        constructor
        · intro h
          simp at h
        · intro h
          rcases h with ⟨h1, h2⟩ | ⟨_, h2⟩
          · exact absurd ⟨h1, by omega⟩ hT
          · exact absurd h2 hK

/-- Witness for C7: in a concrete four-slide deck, the title slide and
the "Key Takeaways" divider get no footer while the second (content)
and fourth (code) slides get footers `2` and `4`. -/
theorem c7_witness :
    (renderDeck [⟨"T", "a", SlideType.title, none⟩, ⟨"B", "b", SlideType.content, none⟩,
        ⟨"Key Takeaways", "c", SlideType.content, none⟩,
        ⟨"C", "d", SlideType.code, some "js"⟩])[1]?
      = some ⟨RenderKind.contentSlide, some 2⟩ ∧
    (renderDeck [⟨"T", "a", SlideType.title, none⟩, ⟨"B", "b", SlideType.content, none⟩,
        ⟨"Key Takeaways", "c", SlideType.content, none⟩,
        ⟨"C", "d", SlideType.code, some "js"⟩])[2]?
      = some ⟨RenderKind.sectionSlide, none⟩ ∧
    (renderDeck [⟨"T", "a", SlideType.title, none⟩, ⟨"B", "b", SlideType.content, none⟩,
        ⟨"Key Takeaways", "c", SlideType.content, none⟩,
        ⟨"C", "d", SlideType.code, some "js"⟩])[3]?
      = some ⟨RenderKind.codeSlide, some 4⟩ := by
  refine ⟨?_, ?_, ?_⟩
  · rw [(c7_footer_rules _ 1 ⟨"B", "b", SlideType.content, none⟩ (by decide)).1]
    decide
  · rw [(c7_footer_rules _ 2 ⟨"Key Takeaways", "c", SlideType.content, none⟩ (by decide)).1]
    decide
  · rw [(c7_footer_rules _ 3 ⟨"C", "d", SlideType.code, some "js"⟩ (by decide)).1]
    decide

/-! ### Conversion batch accounting (claims C6 and C9) -/

/-- A file fails when it exists and its conversion does not succeed. -/
def failsOn (isFile : String → Bool) (outcome : String → ConvOutcome)
    (f : String) : Bool :=
  isFile f && !((convert_svg_to_png (outcome f)).1)

theorem insertSorted_countP (p : String → Bool) (a : String) :
    ∀ (l : List String), (insertSorted a l).countP p = ((a :: l).countP p) := by
  intro l
  induction l with
  | nil => rfl
  | cons b rest ih =>
    simp only [insertSorted]
    by_cases hle : a.data ≤ b.data
    · rw [if_pos hle]
    · rw [if_neg hle]
      simp only [List.countP_cons, ih, List.countP_cons]
      omega

theorem pySorted_countP (p : String → Bool) :
    ∀ (l : List String), (pySorted l).countP p = l.countP p := by
  intro l
  induction l with
  | nil => rfl
  | cons a rest ih =>
    simp only [pySorted]
    rw [insertSorted_countP, List.countP_cons, List.countP_cons, ih]

theorem mem_insertSorted {a x : String} :
    ∀ {l : List String}, x ∈ insertSorted a l → x = a ∨ x ∈ l := by
  intro l
  induction l with
  | nil =>
    intro h
    simp only [insertSorted] at h
    rw [List.mem_singleton] at h
    exact Or.inl h
  | cons b rest ih =>
    intro h
    simp only [insertSorted] at h
    by_cases hle : a.data ≤ b.data
    · rw [if_pos hle] at h
      rcases List.mem_cons.1 h with h | h
      · exact Or.inl h
      · exact Or.inr h
    · rw [if_neg hle] at h
      rcases List.mem_cons.1 h with h | h
      · exact Or.inr (by simp [h])
      · rcases ih h with h | h
        · exact Or.inl h
        · exact Or.inr (by simp [h])

theorem insertSorted_mem {a : String} :
    ∀ {l : List String} {x : String}, (x = a ∨ x ∈ l) → x ∈ insertSorted a l := by
  intro l
  induction l with
  | nil =>
    intro x h
    rcases h with h | h
    · simp [insertSorted, h]
    · simp at h
  | cons b rest ih =>
    intro x h
    simp only [insertSorted]
    by_cases hle : a.data ≤ b.data
    · rw [if_pos hle]
      rcases h with h | h
      · simp [h]
      · simp [h]
    · rw [if_neg hle]
      rcases h with h | h
      · exact List.mem_cons_of_mem b (ih (Or.inl h))
      · rcases List.mem_cons.1 h with h | h
        · simp [h]
        · exact List.mem_cons_of_mem b (ih (Or.inr h))

theorem mem_pySorted {x : String} :
    ∀ {l : List String}, x ∈ l → x ∈ pySorted l := by
  intro l
  induction l with
  | nil => intro h; simp at h
  | cons a rest ih =>
    intro h
    simp only [pySorted]
    rcases List.mem_cons.1 h with h | h
    · exact insertSorted_mem (Or.inl h)
    · exact insertSorted_mem (Or.inr (ih h))

/-- The batch fold: the failure counter counts exactly the existing
files whose conversion fails, and old log entries survive. -/
theorem batch_foldl_failed (isFile : String → Bool) (outcome : String → ConvOutcome) :
    ∀ (files : List String) (r : BatchResult),
    (files.foldl (processFile isFile outcome) r).failed =
      r.failed + files.countP (failsOn isFile outcome) := by
  intro files
  induction files with
  | nil => intro r; simp
  | cons f fs ih =>
    intro r
    rw [List.foldl_cons, ih, List.countP_cons]
    simp only [processFile, failsOn]
    by_cases hf : isFile f = true
    · rw [if_pos hf]
      by_cases hok : (convert_svg_to_png (outcome f)).1 = true
      · rw [if_pos hok]
        simp [hf, hok]
      · rw [if_neg hok]
        simp only [bool_eq_false hok]
        simp [hf]
        omega
    · rw [if_neg hf]
      simp [bool_eq_false hf]

theorem batch_foldl_log_mono (isFile : String → Bool) (outcome : String → ConvOutcome) :
    ∀ (files : List String) (r : BatchResult) (e : String × String),
    e ∈ r.log → e ∈ (files.foldl (processFile isFile outcome) r).log := by
  intro files
  induction files with
  | nil => intro r e he; exact he
  | cons f fs ih =>
    intro r e he
    rw [List.foldl_cons]
    refine ih _ e ?_
    simp only [processFile]
    by_cases hf : isFile f = true
    · rw [if_pos hf]
      by_cases hok : (convert_svg_to_png (outcome f)).1 = true
      · rw [if_pos hok]
        simp [he]
      · rw [if_neg hok]
        simp [he]
    · rw [if_neg hf]
      exact he

/-- Every existing file of the batch gets a log line carrying its name
and the conversion's result message. -/
theorem batch_foldl_log (isFile : String → Bool) (outcome : String → ConvOutcome) :
    ∀ (files : List String) (r : BatchResult) (f : String),
    f ∈ files → isFile f = true →
    (f, (convert_svg_to_png (outcome f)).2) ∈
      (files.foldl (processFile isFile outcome) r).log := by
  intro files
  induction files with
  | nil => intro r f hf; simp at hf
  | cons g fs ih =>
    intro r f hf hisf
    rcases List.mem_cons.1 hf with h | h
    · subst h
      rw [List.foldl_cons]
      refine batch_foldl_log_mono isFile outcome fs _ _ ?_
      simp only [processFile, if_pos hisf]
      by_cases hok : (convert_svg_to_png (outcome f)).1 = true
      · rw [if_pos hok]
        simp
      · rw [if_neg hok]
        simp
    · rw [List.foldl_cons]
      exact ih _ f h hisf

/-! ### Claim C6 -/

/-- Claim C6, counterexample: the filename-pattern positional argument
does not default to `"*featured*.svg"` — the code's default (line 259)
is `"*featured-contract-first.svg"`.  (Also: a run that finds no
matching file exits 1 with zero failed conversions, line 291.) -/
theorem c6_counterexample :
    (parseArgs ["convert-svg-to-png.py"] (fun _ => 0)).pattern ≠ "*featured*.svg" ∧
      (parseArgs ["convert-svg-to-png.py"] (fun _ => 0)).pattern
        = "*featured-contract-first.svg" ∧
      mainExit ⟨true, [], fun _ => true, fun _ => ConvOutcome.ok 1⟩ = 1 := by
  refine ⟨by decide, by decide, by decide⟩

/-- Claim C6 (amended): the CLI accepts positional arguments `width`,
`height` and `filename-pattern`, defaulting to `1200`, `630` and
`"*featured-contract-first.svg"`; when the conversion tool is present
and at least one file matches the pattern, the process exit code is the
count of failed conversions (`0` = full success); a missing tool or an
empty match set exits `1` instead. -/
theorem c6_cli_defaults_exit :
    (∀ (argv : List String) (toInt : String → Int), argv.length ≤ 1 →
      parseArgs argv toInt = ⟨1200, 630, "*featured-contract-first.svg"⟩) ∧
    (∀ (argv : List String) (toInt : String → Int), argv.length ≤ 3 →
      (parseArgs argv toInt).pattern = "*featured-contract-first.svg") ∧
    (∀ (env : Env), env.rsvgOk = true → env.matchedFiles ≠ [] →
      mainExit env = (runBatch env.isFile env.outcome env.matchedFiles).failed) ∧
    (∀ (env : Env), env.rsvgOk = false → mainExit env = 1) ∧
    (∀ (env : Env), env.matchedFiles = [] → env.rsvgOk = true → mainExit env = 1) := by
  refine ⟨?_, ?_, ?_, ?_, ?_⟩
  · intro argv toInt hlen
    have h1 : argv[1]? = none := List.getElem?_eq_none (by omega)
    have h2 : argv[2]? = none := List.getElem?_eq_none (by omega)
    have h3 : argv[3]? = none := List.getElem?_eq_none (by omega)
    simp [parseArgs, h1, h2, h3]
  · intro argv toInt hlen
    have h3 : argv[3]? = none := List.getElem?_eq_none (by omega)
    simp [parseArgs, h3]
  · intro env hok hne
    simp only [mainExit, hok]
    rw [if_neg (by simp), if_neg hne]
  · intro env hmiss
    simp [mainExit, hmiss]
  · intro env hempty hok
    simp [mainExit, hok, hempty]

/-- Witness for C6: a bare invocation gets all three defaults, and a
concrete two-file run with one failure exits with code 1. -/
theorem c6_witness :
    parseArgs ["convert-svg-to-png.py"] (fun _ => 0)
        = ⟨1200, 630, "*featured-contract-first.svg"⟩ ∧
      mainExit ⟨true, ["b.svg", "a.svg"], fun _ => true,
        fun f => if f = "a.svg" then ConvOutcome.timeout else ConvOutcome.ok 2048⟩
        = (runBatch (fun _ => true)
            (fun f => if f = "a.svg" then ConvOutcome.timeout else ConvOutcome.ok 2048)
            ["b.svg", "a.svg"]).failed := by
  constructor
  · exact c6_cli_defaults_exit.1 ["convert-svg-to-png.py"] (fun _ => 0) (by decide)
  · exact c6_cli_defaults_exit.2.2.1 _ rfl (by decide)

/-! ### Claim C9 -/

/-- Claim C9: each of `convert_svg_to_png`'s failure modes (subprocess
error with stderr, timeout, any other exception such as a missing tool)
is caught and mapped to a `(False, reason)` result rather than
propagating; the batch loop logs every existing file with its name and
result message (so failures are reported with file name and reason) and
keeps going; the failure counter counts exactly the existing files
whose conversion failed; and the process exit status, for a run that
reaches the loop, is that failure count. -/
theorem c9_per_file_failures :
    (∀ e, convert_svg_to_png (ConvOutcome.procErr e)
        = (false, "Conversion error: " ++ e)) ∧
    (convert_svg_to_png ConvOutcome.timeout = (false, "Conversion timeout (>30s)")) ∧
    (∀ m, convert_svg_to_png (ConvOutcome.exc m) = (false, m)) ∧
    (∀ n, (convert_svg_to_png (ConvOutcome.ok n)).1 = true) ∧
    (∀ (isFile : String → Bool) (outcome : String → ConvOutcome)
       (files : List String),
      (runBatch isFile outcome files).failed = files.countP (failsOn isFile outcome)) ∧
    (∀ (isFile : String → Bool) (outcome : String → ConvOutcome)
       (files : List String) (f : String), f ∈ files → isFile f = true →
      (f, (convert_svg_to_png (outcome f)).2) ∈ (runBatch isFile outcome files).log) ∧
    (∀ (env : Env), env.rsvgOk = true → env.matchedFiles ≠ [] →
      mainExit env = env.matchedFiles.countP (failsOn env.isFile env.outcome)) := by
  refine ⟨fun e => rfl, rfl, fun m => rfl, fun n => rfl, ?_, ?_, ?_⟩
  · intro isFile outcome files
    show ((pySorted files).foldl (processFile isFile outcome) {}).failed = _
    rw [batch_foldl_failed, pySorted_countP]
    simp
  · intro isFile outcome files f hf hisf
    exact batch_foldl_log isFile outcome (pySorted files) {} f (mem_pySorted hf) hisf
  · intro env hok hne
    have h1 : mainExit env = (runBatch env.isFile env.outcome env.matchedFiles).failed := by
      simp only [mainExit, hok]
      rw [if_neg (by simp), if_neg hne]
    rw [h1]
    show ((pySorted env.matchedFiles).foldl (processFile env.isFile env.outcome) {}).failed = _
    rw [batch_foldl_failed, pySorted_countP]
    simp

/-- Witness for C9: in a concrete two-file batch where `a.svg` times
out and `b.svg` converts to a 2048-byte PNG, the run logs both files
(the failure with its reason), counts one failure, and exits 1. -/
theorem c9_witness :
    (runBatch (fun _ => true)
        (fun f => if f = "a.svg" then ConvOutcome.timeout else ConvOutcome.ok 2048)
        ["b.svg", "a.svg"]).failed = 1 ∧
      ("a.svg", "Conversion timeout (>30s)") ∈
        (runBatch (fun _ => true)
          (fun f => if f = "a.svg" then ConvOutcome.timeout else ConvOutcome.ok 2048)
          ["b.svg", "a.svg"]).log ∧
      mainExit ⟨true, ["b.svg", "a.svg"], fun _ => true,
        fun f => if f = "a.svg" then ConvOutcome.timeout else ConvOutcome.ok 2048⟩ = 1 := by
  refine ⟨?_, ?_, ?_⟩
  · rw [c9_per_file_failures.2.2.2.2.1]
    decide
  · exact c9_per_file_failures.2.2.2.2.2.1 _ _ ["b.svg", "a.svg"] "a.svg"
      (by decide) rfl
  · rw [c9_per_file_failures.2.2.2.2.2.2 _ rfl (by decide)]
    decide

end ContractFirst
